import Mathlib

/-!
Verification of the VulcanBoard configuration validator and state resolver
(src/config/load.py, src/config/state.py, src/config/const.py,
src/config/classes.py, and the hex-color predicate defined in
src/VulcanBoard.py).

The Python code is shallowly embedded: a parsed YAML document is a value of
the inductive type YamlVal (Python distinguishes bool from int, but
isinstance(b, int) is true for bools, which the helpers below reproduce),
Python dicts are association lists with first-match lookup, and code that can
raise an exception returns Except PyErr.  Python sets of ints are modelled by
the CPython open-addressing hash table (PySet below), so the enumeration
order of list(set) — which depends on the insertion history whenever keys
collide modulo the table size — is reproduced exactly.  File IO and the YAML
parser itself are outside the model: get_config takes the already-parsed
mapping.

Python error-message strings are reproduced from the source except that
quote characters around interpolated fragments are omitted, and str() of a
bool that is used as an int in a message is rendered as its numeric value;
no theorem below depends on message text.
-/

/-- A parsed YAML/Python value as produced by yaml.safe_load: ints, bools,
strings, lists, string-keyed mappings, and None. -/
inductive YamlVal where
  | vint (n : Int)
  | vbool (b : Bool)
  | vstr (s : String)
  | vlist (xs : List YamlVal)
  | vdict (entries : List (String × YamlVal))
  | vnull
  deriving Repr

mutual
/-- Structural boolean equality of values. -/
def yamlBeq : YamlVal → YamlVal → Bool
  | .vint a, .vint b => a == b
  | .vbool a, .vbool b => a == b
  | .vstr a, .vstr b => a == b
  | .vlist xs, .vlist ys => yamlListBeq xs ys
  | .vdict d, .vdict e => yamlDictBeq d e
  | .vnull, .vnull => true
  | _, _ => false

/-- Structural boolean equality of value lists. -/
def yamlListBeq : List YamlVal → List YamlVal → Bool
  | [], [] => true
  | x :: xs, y :: ys => yamlBeq x y && yamlListBeq xs ys
  | _, _ => false

/-- Structural boolean equality of mapping entry lists. -/
def yamlDictBeq : List (String × YamlVal) → List (String × YamlVal) → Bool
  | [], [] => true
  | (k, v) :: d, (k', v') :: e => k == k' && yamlBeq v v' && yamlDictBeq d e
  | _, _ => false
end

mutual
theorem yamlBeq_iff : ∀ a b : YamlVal, yamlBeq a b = true ↔ a = b
  | .vint a, .vint b => by simp [yamlBeq]
  | .vint _, .vbool _ => by simp [yamlBeq]
  | .vint _, .vstr _ => by simp [yamlBeq]
  | .vint _, .vlist _ => by simp [yamlBeq]
  | .vint _, .vdict _ => by simp [yamlBeq]
  | .vint _, .vnull => by simp [yamlBeq]
  | .vbool _, .vint _ => by simp [yamlBeq]
  | .vbool a, .vbool b => by simp [yamlBeq]
  | .vbool _, .vstr _ => by simp [yamlBeq]
  | .vbool _, .vlist _ => by simp [yamlBeq]
  | .vbool _, .vdict _ => by simp [yamlBeq]
  | .vbool _, .vnull => by simp [yamlBeq]
  | .vstr _, .vint _ => by simp [yamlBeq]
  | .vstr _, .vbool _ => by simp [yamlBeq]
  | .vstr a, .vstr b => by simp [yamlBeq]
  | .vstr _, .vlist _ => by simp [yamlBeq]
  | .vstr _, .vdict _ => by simp [yamlBeq]
  | .vstr _, .vnull => by simp [yamlBeq]
  | .vlist _, .vint _ => by simp [yamlBeq]
  | .vlist _, .vbool _ => by simp [yamlBeq]
  | .vlist _, .vstr _ => by simp [yamlBeq]
  | .vlist xs, .vlist ys => by
    simp only [yamlBeq, YamlVal.vlist.injEq]
    exact yamlListBeq_iff xs ys
  | .vlist _, .vdict _ => by simp [yamlBeq]
  | .vlist _, .vnull => by simp [yamlBeq]
  | .vdict _, .vint _ => by simp [yamlBeq]
  | .vdict _, .vbool _ => by simp [yamlBeq]
  | .vdict _, .vstr _ => by simp [yamlBeq]
  | .vdict _, .vlist _ => by simp [yamlBeq]
  | .vdict d, .vdict e => by
    simp only [yamlBeq, YamlVal.vdict.injEq]
    exact yamlDictBeq_iff d e
  | .vdict _, .vnull => by simp [yamlBeq]
  | .vnull, .vint _ => by simp [yamlBeq]
  | .vnull, .vbool _ => by simp [yamlBeq]
  | .vnull, .vstr _ => by simp [yamlBeq]
  | .vnull, .vlist _ => by simp [yamlBeq]
  | .vnull, .vdict _ => by simp [yamlBeq]
  | .vnull, .vnull => by simp [yamlBeq]

theorem yamlListBeq_iff : ∀ a b : List YamlVal, yamlListBeq a b = true ↔ a = b
  | [], [] => by simp [yamlListBeq]
  | [], _ :: _ => by simp [yamlListBeq]
  | _ :: _, [] => by simp [yamlListBeq]
  | x :: xs, y :: ys => by
    simp only [yamlListBeq, Bool.and_eq_true, List.cons.injEq]
    exact and_congr (yamlBeq_iff x y) (yamlListBeq_iff xs ys)

theorem yamlDictBeq_iff :
    ∀ a b : List (String × YamlVal), yamlDictBeq a b = true ↔ a = b
  | [], [] => by simp [yamlDictBeq]
  | [], _ :: _ => by simp [yamlDictBeq]
  | _ :: _, [] => by simp [yamlDictBeq]
  | (k, v) :: d, (k', v') :: e => by
    simp only [yamlDictBeq, Bool.and_eq_true, List.cons.injEq, Prod.mk.injEq,
      beq_iff_eq, and_assoc]
    exact and_congr_right fun _ =>
      and_congr (yamlBeq_iff v v') (yamlDictBeq_iff d e)
end

instance : DecidableEq YamlVal := fun a b =>
  decidable_of_iff (yamlBeq a b = true) (yamlBeq_iff a b)

namespace YamlVal

/-- Python isinstance(v, int): true for ints and for bools. -/
def isInt : YamlVal → Bool
  | vint _ => true
  | vbool _ => true
  | _ => false

/-- The integer value of a Python int-or-bool (True is 1, False is 0);
0 for values that are not ints (never reached on such values by the
embedded code, which tests isInt first). -/
def asInt : YamlVal → Int
  | vint n => n
  | vbool b => if b then 1 else 0
  | _ => 0

/-- Python isinstance(v, bool): true only for bools. -/
def isBool : YamlVal → Bool
  | vbool _ => true
  | _ => false

/-- Python isinstance(v, str). -/
def isStr : YamlVal → Bool
  | vstr _ => true
  | _ => false

/-- The string of a Python str value ("" on other values, never reached). -/
def asStr : YamlVal → String
  | vstr s => s
  | _ => ""

/-- Python isinstance(v, list). -/
def isList : YamlVal → Bool
  | vlist _ => true
  | _ => false

/-- The elements of a Python list value ([] on other values). -/
def asList : YamlVal → List YamlVal
  | vlist xs => xs
  | _ => []

/-- Python isinstance(v, dict). -/
def isDict : YamlVal → Bool
  | vdict _ => true
  | _ => false

/-- Python truthiness: bool(v). -/
def truthy : YamlVal → Bool
  | vint n => n != 0
  | vbool b => b
  | vstr s => s ≠ ""
  | vlist xs => !xs.isEmpty
  | vdict d => !d.isEmpty
  | vnull => false

/-- Python dict.get(k, default) on a mapping value; callers only apply it to
values already known to be dicts. -/
def get (v : YamlVal) (k : String) (dflt : YamlVal) : YamlVal :=
  match v with
  | vdict d =>
    match d.find? (fun p => p.1 == k) with
    | some p => p.2
    | none => dflt
  | _ => dflt

end YamlVal

/-- The Python exceptions the embedded code can raise.  CustomException is
the validator error type of the source (util); the others are built-in
exceptions that the source does not catch inside the validator. -/
inductive PyErr where
  | customException (msg : String)
  | indexError
  | typeError
  | valueError
  | keyError
  | attributeError
  deriving Repr, DecidableEq

open YamlVal

/-- Python str() of an int or the numeric rendering used in messages. -/
def pyIntStr (n : Int) : String := toString n

mutual
/-- Python str()/repr() of a value, used only inside error messages
(quotes around strings are omitted, see the file comment). -/
def pyRepr : YamlVal → String
  | .vint n => pyIntStr n
  | .vbool b => if b then "True" else "False"
  | .vstr s => s
  | .vlist xs => "[" ++ String.intercalate ", " (pyReprList xs) ++ "]"
  | .vdict d => "\x7b" ++ String.intercalate ", " (pyReprDict d) ++ "\x7d"
  | .vnull => "None"

def pyReprList : List YamlVal → List String
  | [] => []
  | x :: xs => pyRepr x :: pyReprList xs

def pyReprDict : List (String × YamlVal) → List String
  | [] => []
  | (k, v) :: d => (k ++ ": " ++ pyRepr v) :: pyReprDict d
end

/-- Python subscript d[k] with a string key: the value when present, a
KeyError when the key is absent, a TypeError when d is not a mapping
(subscripting a list or string with a string key raises TypeError). -/
def pySubscr (v : YamlVal) (k : String) : Except PyErr YamlVal :=
  match v with
  | .vdict d =>
    match d.find? (fun p => p.1 == k) with
    | some p => Except.ok p.2
    | none => Except.error PyErr.keyError
  | _ => Except.error PyErr.typeError

/-- Python for-loop iteration over a value: a list yields its elements, a
string yields its characters (as one-character strings), a dict yields its
keys, anything else raises TypeError. -/
def pyIter (v : YamlVal) : Except PyErr (List YamlVal) :=
  match v with
  | .vlist xs => Except.ok xs
  | .vstr s => Except.ok (s.toList.map (fun c => YamlVal.vstr (String.singleton c)))
  | .vdict d => Except.ok (d.map (fun p => YamlVal.vstr p.1))
  | _ => Except.error PyErr.typeError

/-- Python (v[0], v[1]) on a value: elements 0 and 1 of a list (IndexError
when too short), characters of a string, TypeError otherwise (dict subscript
with key 0 gives KeyError since the embedded dicts have string keys). -/
def pyIndex01 (v : YamlVal) : Except PyErr (YamlVal × YamlVal) :=
  match v with
  | .vlist (x :: y :: _) => Except.ok (x, y)
  | .vlist _ => Except.error PyErr.indexError
  | .vstr s =>
    match s.toList with
    | c0 :: c1 :: _ =>
      Except.ok (YamlVal.vstr (String.singleton c0), YamlVal.vstr (String.singleton c1))
    | _ => Except.error PyErr.indexError
  | .vdict _ => Except.error PyErr.keyError
  | _ => Except.error PyErr.typeError

/-- Python v == n for an arbitrary value v and an int n: numeric comparison
for ints and bools, False for every other type. -/
def pyEqInt (v : YamlVal) (n : Int) : Bool :=
  v.isInt && v.asInt == n

-- ---------------------------------------------------------------------------
-- src/config/const.py
-- ---------------------------------------------------------------------------

def DEFAULT_BUTTON_BG_COLOR : String := "aaaaff"
def DEFAULT_BUTTON_FG_COLOR : String := "ffffff"
def DEFAULT_STATE_ID : Int := 0
def ERROR_SINK_STATE_ID : Int := 1

-- ---------------------------------------------------------------------------
-- is_valid_hexcolor (defined in src/VulcanBoard.py; config/load.py imports
-- the same-named predicate from config/validate.py, absent from the tree)
-- ---------------------------------------------------------------------------

def VALID_HEX_COLORS : List Char := "0123456789abcdef".toList

/-- Python str.lower(), modelled as the character-wise lowercase map (the
strings fed to it here are ASCII hex digits and letters). -/
def pyLower (s : String) : String := String.mk (s.data.map Char.toLower)

/-- A six-character string of lowercase-hex digits (the lowercase conversion
of the source is applied before the membership test). -/
def is_valid_hexcolor (hexcolor : String) : Bool :=
  if hexcolor.length != 6 then false
  else ((pyLower hexcolor).toList.all (fun c => VALID_HEX_COLORS.contains c))

-- ---------------------------------------------------------------------------
-- src/config/state.py
-- ---------------------------------------------------------------------------

/-- contains_id from src/config/state.py: scans the list, subscripting each
element with "id" (which can raise for non-dict elements or missing keys),
and reports whether any id compares equal to state_id. -/
def contains_id (states : List YamlVal) (state_id : Int) : Except PyErr Bool :=
  match states with
  | [] => Except.ok false
  | s :: rest => do
    let v ← pySubscr s "id"
    if pyEqInt v state_id then
      Except.ok true
    else
      contains_id rest state_id

/-- get_state_id_from_exit_code from src/config/state.py: the exit code when
a state with that id exists, the error-sink id 1 otherwise. -/
def get_state_id_from_exit_code (states : List YamlVal) (exit_code : Int) :
    Except PyErr Int := do
  let found ← contains_id states exit_code
  if !found then
    Except.ok ERROR_SINK_STATE_ID
  else
    Except.ok exit_code

/-- Insert an integer into a strictly-ascending list, keeping it sorted and
duplicate-free.  This is NOT a model of any Python operation: it builds the
canonical ascending enumeration of a set of ints, used below only to state
content-level properties (which ids are declared) independently of any
enumeration order.  The program's list(set) enumeration is modelled
faithfully by the CPython hash table PySet further down. -/
def insertSortedSet (l : List Int) (n : Int) : List Int :=
  match l with
  | [] => [n]
  | x :: xs =>
    if n < x then n :: x :: xs
    else if n = x then x :: xs
    else x :: insertSortedSet xs n

/-- The integer id declared by a state dict, when its id entry is an
int-or-bool. -/
def idIntOf (s : YamlVal) : Option Int :=
  if (s.get "id" YamlVal.vnull).isInt then some (s.get "id" YamlVal.vnull).asInt
  else none

/-- The set of integer state ids declared by a list of state dicts (elements
whose id entry is not an int-or-bool contribute nothing), as its canonical
ascending enumeration.  Claim statements use it only through membership:
it is the content of the declared id set, not the order in which the
program enumerates it (for that see PySet.toList). -/
def stateIdSet : List YamlVal → List Int
  | [] => []
  | s :: rest =>
    match idIntOf s with
    | some n => insertSortedSet (stateIdSet rest) n
    | none => stateIdSet rest

-- ---------------------------------------------------------------------------
-- CPython sets of ints (Objects/setobject.c), as observed through list(set)
-- ---------------------------------------------------------------------------

/-- Python hash() of an int: reduction modulo 2^61 - 1 with the sign of the
argument, and -1 (reserved for errors) replaced by -2 (CPython long_hash). -/
def pyHashInt (n : Int) : Int :=
  let m : Int := 2 ^ 61 - 1
  let h := if n < 0 then -((-n) % m) else n % m
  if h = -1 then -2 else h

/-- A CPython set of ints: the open-addressing slot table of setobject.c.
A slot is none when unused; fill counts used slots (no key is ever removed
here, so fill = used and there are no dummy slots). -/
structure PySet where
  table : List (Option Int)
  fill : Nat

/-- set() starts with the PySet_MINSIZE = 8 slot table. -/
def pySetEmpty : PySet := ⟨List.replicate 8 none, 0⟩

/-- Result of probing for a key: the slot index of the first unused slot on
the probe sequence, or the fact that the key is already present. -/
inductive PyProbeHit where
  | empty (slot : Nat)
  | present

/-- One probe window: slots i, i+1, ..., i+cnt-1 of the table, in order
(the do-while of set_add_entry, which checks the base slot and then up to
LINEAR_PROBES = 9 successors when they do not run past the table). -/
def pySetScan (table : List (Option Int)) (k : Int) :
    Nat → Nat → Option PyProbeHit
  | _, 0 => none
  | i, cnt + 1 =>
    match table.getD i none with
    | none => some (.empty i)
    | some j =>
      if j = k then some .present
      else pySetScan table k (i + 1) cnt

/-- The probe loop of set_add_entry/set_insert_clean: scan the window at i,
then shift perturb right by PERTURB_SHIFT = 5 and jump to
(i*5 + 1 + perturb) mod table size.  All size_t arithmetic is exact here
because the table size is a power of two dividing 2^64.  The fuel only
bounds the recursion for Lean; the probe sequence reaches an unused slot
long before the fuel passed below runs out (the jump recurrence alone
enumerates every slot once perturb has shifted to zero). -/
def pySetLookup (table : List (Option Int)) (k : Int) :
    Nat → Nat → Nat → Option PyProbeHit
  | 0, _, _ => none
  | fuel + 1, i, perturb =>
    let mask := table.length - 1
    let cnt := if i + 9 ≤ mask then 10 else 1
    match pySetScan table k i cnt with
    | some hit => some hit
    | none =>
      let p := perturb >>> 5
      pySetLookup table k fuel ((i * 5 + 1 + p) % table.length) p

/-- Place a key into the table without growing it (the slot-finding part of
set_add_entry, also used by set_insert_clean during a resize): start at
hash mod size with perturb = hash as size_t, insert at the first unused
slot, leave the set unchanged when the key is already present. -/
def pySetInsertOnly (s : PySet) (k : Int) : PySet :=
  let h := pyHashInt k
  match pySetLookup s.table k (s.table.length + 64)
      ((h.emod (s.table.length : Int)).toNat)
      ((h.emod (2 ^ 64 : Int)).toNat) with
  | some (.empty j) => ⟨s.table.set j (some k), s.fill + 1⟩
  | some .present => s
  | none => s

/-- The new-size loop of set_table_resize: the smallest power of two,
starting from PySet_MINSIZE = 8, strictly greater than minused.  The fuel
is an upper bound on the doublings. -/
def pySetGrow (minused : Nat) : Nat → Nat → Nat
  | 0, size => size
  | fuel + 1, size =>
    if size ≤ minused then pySetGrow minused fuel (size * 2) else size

/-- set_table_resize: allocate the grown table and re-insert the keys in
slot order of the old table (set_insert_clean probes exactly like
set_add_entry when no key is missing or duplicated). -/
def pySetResize (s : PySet) (minused : Nat) : PySet :=
  let newsize := pySetGrow minused (minused + 4) 8
  s.table.foldl
    (fun acc slot =>
      match slot with
      | some k => pySetInsertOnly acc k
      | none => acc)
    (⟨List.replicate newsize none, 0⟩ : PySet)

/-- set.add(k) (set_add_entry): insert, and after a genuine insertion grow
the table when fill*5 is at least mask*3, to used*4 (used*2 beyond 50000
elements). -/
def pySetAdd (s : PySet) (k : Int) : PySet :=
  let s2 := pySetInsertOnly s k
  if s2.fill = s.fill then s2
  else if s2.fill * 5 < (s2.table.length - 1) * 3 then s2
  else pySetResize s2 (if s2.fill > 50000 then s2.fill * 2 else s2.fill * 4)

/-- list(s) for a set: the keys in slot order of the table (set_next walks
the table from slot 0 upward).  This order depends on the insertion
history whenever keys collide modulo the table size. -/
def PySet.toList (s : PySet) : List Int := s.table.filterMap id

/-- Accumulator loop of get_state_ids: the set built so far, extended state
by state in list order, failing at the first non-dict element. -/
def get_state_ids_aux (acc : PySet) : List YamlVal → Except PyErr PySet
  | [] => Except.ok acc
  | s :: rest =>
    match s with
    | .vdict _ =>
      let pid := s.get "id" YamlVal.vnull
      if pid.isInt then
        get_state_ids_aux (pySetAdd acc pid.asInt) rest
      else
        get_state_ids_aux acc rest
    | _ => Except.error PyErr.attributeError

/-- get_state_ids from src/config/state.py: builds the set of int-typed ids
(state.get raises AttributeError on a non-dict element) and returns
list(output), the slot-order enumeration of the CPython table. -/
def get_state_ids (states : List YamlVal) : Except PyErr (List Int) :=
  match get_state_ids_aux pySetEmpty states with
  | Except.ok s => Except.ok s.toList
  | Except.error e => Except.error e

-- ---------------------------------------------------------------------------
-- src/config/load.py
-- ---------------------------------------------------------------------------

/-- The Python bool(v) of v used as a Lean Bool (vbool b gives b, anything
else false; only applied to values already checked with isBool). -/
def YamlVal.asBool : YamlVal → Bool
  | .vbool b => b
  | _ => false

/-- ConfigLoader.is_valid_dimension: the negated disjunct chain of the
source, evaluated left to right with Python short-circuiting.  Subscripting
dimensions[0] and dimensions[1] happens before any length test, so an empty
list, or a one-element list whose element is an int, raises IndexError. -/
def is_valid_dimension (rows cols : Int) (dimensions : YamlVal) :
    Except PyErr Bool :=
  match dimensions with
  | .vlist [] => Except.error PyErr.indexError
  | .vlist (x0 :: rest) =>
    if !x0.isInt then Except.ok false
    else
      match rest with
      | [] => Except.error PyErr.indexError
      | x1 :: _ =>
        if !x1.isInt then Except.ok false
        else if 0 > x0.asInt ∨ x0.asInt > rows - 1 then Except.ok false
        else if 0 > x1.asInt ∨ x1.asInt > cols - 1 then Except.ok false
        else Except.ok true
  | _ => Except.ok false

/-- Add an int to an insertion-ordered duplicate-free list; the model of
Python set.add where only membership and the enumeration order of error
reporting matter. -/
def addIntSet (l : List Int) (n : Int) : List Int :=
  if n ∈ l then l else l ++ [n]

/-- The per-button accumulator of the state loop of validate_buttons:
defined_state_ids and to_follow_up_state_ids. -/
structure StateAcc where
  definedIds : List Int
  followUps : List Int
  deriving Repr, DecidableEq

/-- One iteration of the state loop of validate_buttons (load.py lines
113 to 156): structural checks of a single state dict, threading the
accumulated id sets. -/
def validate_state (btn_dims : String) (acc : StateAcc) (state : YamlVal) :
    Except PyErr StateAcc :=
  let idVal := state.get "id" YamlVal.vnull
  if !(state.isDict && idVal.isInt) then
    Except.error (PyErr.customException
      ("invalid " ++ btn_dims ++ ": invalid state id detected"))
  else
    let state_id := idVal.asInt
    if state_id ∈ acc.definedIds then
      Except.error (PyErr.customException
        ("invalid " ++ btn_dims ++ ": tried to define state "
          ++ pyRepr idVal ++ " twice"))
    else
      let definedIds := acc.definedIds ++ [state_id]
      if !(state.get "cmd" (YamlVal.vstr "")).isStr then
        Except.error (PyErr.customException
          ("invalid " ++ btn_dims ++ ": invalid cmd subentry for state id "
            ++ pyRepr idVal ++ ": must be a string"))
      else if !(state.get "txt" (YamlVal.vstr "")).isStr then
        Except.error (PyErr.customException
          ("invalid " ++ btn_dims ++ ": invalid txt subentry for state id "
            ++ pyRepr idVal ++ ": must be a string"))
      else
        let bg := state.get "bg_color" (YamlVal.vstr DEFAULT_BUTTON_BG_COLOR)
        if !(bg.isStr && is_valid_hexcolor bg.asStr) then
          Except.error (PyErr.customException
            ("invalid " ++ btn_dims ++ ": bg_color subentry for state "
              ++ pyRepr idVal ++ ": " ++ pyRepr bg))
        else
          let fg := state.get "fg_color" (YamlVal.vstr DEFAULT_BUTTON_FG_COLOR)
          if !(fg.isStr && is_valid_hexcolor fg.asStr) then
            Except.error (PyErr.customException
              ("invalid " ++ btn_dims ++ ": fg_color subentry for state "
                ++ pyRepr idVal ++ ": " ++ pyRepr fg))
          else
            let fu := state.get "follow_up_state" (YamlVal.vint 0)
            if !fu.isInt then
              Except.error (PyErr.customException
                ("invalid " ++ btn_dims
                  ++ ": follow_up_state subentry for state "
                  ++ pyRepr idVal ++ ": must be int"))
            else
              Except.ok ⟨definedIds, addIntSet acc.followUps fu.asInt⟩

/-- The state loop of validate_buttons, folding validate_state over the
states list in declaration order. -/
def validate_states (btn_dims : String) (acc : StateAcc) :
    List YamlVal → Except PyErr StateAcc
  | [] => Except.ok acc
  | s :: rest => do
    let acc' ← validate_state btn_dims acc s
    validate_states btn_dims acc' rest

/-- The loop over affects_buttons entries (load.py lines 169 to 175): each
entry must pass is_valid_dimension. -/
def validate_affects (rows cols : Int) (btn_dims : String) :
    List YamlVal → Except PyErr Unit
  | [] => Except.ok ()
  | a :: rest => do
    let valid ← is_valid_dimension rows cols a
    if !valid then
      Except.error (PyErr.customException
        ("invalid " ++ btn_dims ++ ": affects_buttons entry: "
          ++ "invalid dimensions: " ++ pyRepr a))
    else
      validate_affects rows cols btn_dims rest

/-- The loop over to_follow_up_state_ids (load.py lines 191 to 197): every
follow-up id must be a defined state id of the same button. -/
def check_follow_ups (btn_dims : String) (definedIds : List Int) :
    List Int → Except PyErr Unit
  | [] => Except.ok ()
  | f :: rest =>
    if f ∉ definedIds then
      Except.error (PyErr.customException
        ("invalid " ++ btn_dims ++ ": invalid follow_up_state "
          ++ "subentry found: state " ++ pyIntStr f ++ " does "
          ++ "not exist"))
    else
      check_follow_ups btn_dims definedIds rest

/-- The truthiness-guarded loop over affects_buttons (load.py lines 168 to
175): a truthy non-list value is iterated like any Python value (a string
yields characters, an int or bool raises TypeError); a falsy value skips
the loop. -/
def check_affects (rows cols : Int) (btn_dims : String) (affects : YamlVal) :
    Except PyErr Unit :=
  if affects.truthy then do
    let items ← pyIter affects
    validate_affects rows cols btn_dims items
  else
    pure ()

/-- What one iteration of the button loop of validate_buttons contributes
to the loop state: the grid key and raw position value of the button, its
id sets, and whether it joins buttons_that_affect_others. -/
structure ButtonInfo where
  posKey : Int × Int
  dims : YamlVal
  declaredIds : List Int
  followUps : List Int
  affectsTruthy : Bool
  deriving Repr, DecidableEq

/-- One iteration of the button loop of validate_buttons (load.py lines
82 to 197), except for the button_grid insertion and the trigger-set add,
which the caller performs from the returned ButtonInfo. -/
def process_button (rows cols : Int) (button : YamlVal) :
    Except PyErr ButtonInfo := do
  if !button.isDict then
    Except.error (PyErr.customException
      "invalid button config. needs to be a list of dicts.")
  else
    let dims := button.get "position" (YamlVal.vstr "")
    let valid ← is_valid_dimension rows cols dims
    if !valid then
      Except.error (PyErr.customException
        ("invalid position subentry: " ++ pyRepr dims))
    else do
      let dpair ← pyIndex01 dims
      let btn_dims :=
        "button (" ++ pyRepr dpair.1 ++ ", " ++ pyRepr dpair.2 ++ ")"
      let states := button.get "states" (YamlVal.vstr "")
      if !states.isList then
        Except.error (PyErr.customException
          ("invalid " ++ btn_dims ++ " states subentry: " ++ pyRepr states))
      else if states.asList.length == 0 then
        Except.error (PyErr.customException
          ("invalid " ++ btn_dims ++ " states subentry: list cannot be empty"))
      else if !(button.get "autostart" (YamlVal.vbool false)).isBool then
        Except.error (PyErr.customException
          ("invalid " ++ btn_dims ++ " autostart entry: must be boolean"))
      else do
        let acc ← validate_states btn_dims ⟨[], []⟩ states.asList
        let affects := button.get "affects_buttons" YamlVal.vnull
        if affects.isList && affects.asList.length == 0 then
          Except.error (PyErr.customException
            ("invalid " ++ btn_dims ++ ": affects_buttons entry: must be"
              ++ "a non-empty list"))
        else do
          check_affects rows cols btn_dims affects
          if DEFAULT_STATE_ID ∉ acc.definedIds then
            Except.error (PyErr.customException
              ("invalid " ++ btn_dims ++ ": missing default state id "
                ++ pyIntStr DEFAULT_STATE_ID))
          else if acc.definedIds.length > 1
              && ERROR_SINK_STATE_ID ∉ acc.definedIds then
            Except.error (PyErr.customException
              ("invalid " ++ btn_dims ++ ": missing error sink state id "
                ++ pyIntStr ERROR_SINK_STATE_ID ++ " for unstateless button"))
          else do
            check_follow_ups btn_dims acc.definedIds acc.followUps
            Except.ok
              ⟨(dpair.1.asInt, dpair.2.asInt), dims, acc.definedIds,
                acc.followUps, affects.truthy⟩

/-- The position-keyed button map button_grid: association pairs with the
update semantics of a Python dict (tuple keys compare by numeric equality,
so the int value of a coordinate is the key). -/
abbrev Grid := List ((Int × Int) × YamlVal)

/-- Python d[k] = v on the grid: replace the value at the key when present
(keys are unique, so replacing the first occurrence is the dict update),
append otherwise. -/
def gridInsert : Grid → (Int × Int) → YamlVal → Grid
  | [], k, v => [(k, v)]
  | p :: rest, k, v =>
    if p.1 = k then (k, v) :: rest else p :: gridInsert rest k v

/-- Python button_grid[k] lookup. -/
def gridFind : Grid → (Int × Int) → Option YamlVal
  | [], _ => none
  | p :: rest, k => if p.1 = k then some p.2 else gridFind rest k

/-- buttons_that_affect_others.add(str(dimensions)): the set of position
strings is modelled as an insertion-ordered duplicate-free list of the raw
position values (structurally equal values have equal str() renderings). -/
def addTrigger (t : List YamlVal) (dims : YamlVal) : List YamlVal :=
  if dims ∈ t then t else t ++ [dims]

/-- The button loop of validate_buttons: validates each button in
declaration order, inserting it into button_grid and recording it in
buttons_that_affect_others when its affects_buttons entry is truthy. -/
def firstPass (rows cols : Int) (g : Grid) (t : List YamlVal) :
    List YamlVal → Except PyErr (Grid × List YamlVal)
  | [] => Except.ok (g, t)
  | b :: rest => do
    let info ← process_button rows cols b
    firstPass rows cols (gridInsert g info.posKey b)
      (if info.affectsTruthy then addTrigger t info.dims else t) rest

/-- Models the str()/find()/slice/int() round trip of load.py lines 200 to
202: the source stores str(dimensions) and re-parses row and col from the
string.  The parse recovers the coordinates exactly when the stored position
is a two-element list of genuine ints (they are non-negative here, so the
decimal round trip is exact); a third element leaves a comma inside the col
slice and a bool renders as True or False, so int() raises ValueError in
every other case. -/
def parseBtnDims (dims : YamlVal) : Except PyErr (Int × Int) :=
  match dims with
  | .vlist [.vint r, .vint c] => Except.ok (r, c)
  | _ => Except.error PyErr.valueError

/-- The loop over affects_buttons of one triggering button in the second
pass (load.py lines 208 to 218): resolve each referenced position in
button_grid (a failed lookup is caught and re-raised as a CustomException)
and collect get_state_ids of each resolved button. -/
def collect_affected (grid : Grid) (row col : Int) :
    List YamlVal → Except PyErr (List (List Int))
  | [] => Except.ok []
  | a :: rest => do
    let (a0, a1) ← pyIndex01 a
    match gridFind grid (a0.asInt, a1.asInt) with
    | none =>
      Except.error (PyErr.customException
        ("invalid button (" ++ pyIntStr row ++ ", " ++ pyIntStr col
          ++ "): affects_buttons buttons must be defined"))
    | some ab => do
      let sv ← pySubscr ab "states"
      let ids ← get_state_ids sv.asList
      let tail ← collect_affected grid row col rest
      Except.ok (ids :: tail)

/-- The check loop over ids[1:] (load.py lines 220 to 230): no linked button
may be stateless and every linked id list must equal that of the trigger. -/
def check_id_listings (row col : Int) (ids0 : List Int) :
    List (List Int) → Except PyErr Unit
  | [] => Except.ok ()
  | l :: rest =>
    if l.length == 1 then
      Except.error (PyErr.customException
        ("invalid button (" ++ pyIntStr row ++ ", " ++ pyIntStr col
          ++ "): affects_buttons buttons cannot be stateless"))
    else if l ≠ ids0 then
      Except.error (PyErr.customException
        ("invalid button (" ++ pyIntStr row ++ ", " ++ pyIntStr col
          ++ "): affects_buttons buttons must have the same state id s"))
    else
      check_id_listings row col ids0 rest

/-- The body of the second pass for one entry of buttons_that_affect_others
(load.py lines 199 to 230). -/
def processTrigger (grid : Grid) (dims : YamlVal) : Except PyErr Unit := do
  let (row, col) ← parseBtnDims dims
  let button ←
    match gridFind grid (row, col) with
    | some b => Except.ok b
    | none => Except.error PyErr.keyError
  let affects ← pySubscr button "affects_buttons"
  let sv ← pySubscr button "states"
  let ids0 ← get_state_ids sv.asList
  let items ← pyIter affects
  let listings ← collect_affected grid row col items
  check_id_listings row col ids0 listings

/-- The second pass over buttons_that_affect_others. -/
def secondPass (grid : Grid) : List YamlVal → Except PyErr Unit
  | [] => Except.ok ()
  | d :: rest => do
    processTrigger grid d
    secondPass grid rest

/-- ConfigLoader.validate_buttons: the two-pass button validation of
load.py lines 75 to 230. -/
def validate_buttons (rows cols : Int) (buttons : YamlVal) :
    Except PyErr Unit :=
  if !buttons.isList then
    Except.error (PyErr.customException
      "invalid button config. needs to be a list of dicts.")
  else do
    let (g, t) ← firstPass rows cols [] [] buttons.asList
    secondPass g t

/-- ConfigLoader.validate_dimensions: columns is checked before rows; each
must be an int (Python bools included) strictly greater than zero. -/
def validate_dimensions (columns rows : YamlVal) : Except PyErr Unit :=
  if !columns.isInt || columns.asInt ≤ 0 then
    Except.error (PyErr.customException
      ("invalid dimension: " ++ pyRepr columns))
  else if !rows.isInt || rows.asInt ≤ 0 then
    Except.error (PyErr.customException
      ("invalid dimension: " ++ pyRepr rows))
  else
    Except.ok ()

/-- ConfigLoader.validate_styling: spacing is checked before padding, each a
positive int; borderless must be a bool. -/
def validate_styling (spacing padding borderless : YamlVal) :
    Except PyErr Unit :=
  if !spacing.isInt || spacing.asInt ≤ 0 then
    Except.error (PyErr.customException
      ("invalid styling: " ++ pyRepr spacing))
  else if !padding.isInt || padding.asInt ≤ 0 then
    Except.error (PyErr.customException
      ("invalid styling: " ++ pyRepr padding))
  else if !borderless.isBool then
    Except.error (PyErr.customException
      "invalid borderless value, should be boolean")
  else
    Except.ok ()

/-- The Config dataclass of src/config/classes.py: ten fields, all without
defaults, so every constructor call must supply all ten. -/
structure Config where
  columns : Int
  rows : Int
  buttons : List YamlVal
  spacing : Int
  padding : Int
  borderless : Bool
  set_window_pos : Bool
  window_pos_x : Int
  window_pos_y : Int
  use_auto_fullscreen_mode : Bool
  deriving Repr, DecidableEq

/-- The two normal outcomes the Config | str annotation of
ConfigLoader.get_config declares: a validated Config or a human-readable
error string.  Uncaught exceptions are a third, abnormal, outcome and
appear as the error side of the surrounding Except (with the staged
classes.py the Config outcome is never reached, see interpret_config). -/
inductive ConfigResult where
  | config (c : Config)
  | errorString (s : String)
  deriving Repr, DecidableEq

/-- The ConfigLoader dataclass state after post-init: the config path and
the six attributes that get_config assigns before interpreting. -/
structure ConfigLoader where
  config_path : String
  columns : YamlVal := YamlVal.vint 0
  rows : YamlVal := YamlVal.vint 0
  buttons : YamlVal := YamlVal.vlist []
  padding : YamlVal := YamlVal.vint 0
  spacing : YamlVal := YamlVal.vint 0
  borderless : YamlVal := YamlVal.vbool false
  deriving Repr, DecidableEq

/-- ConfigLoader.interpret_config: dimensions, buttons, then styling, then
the Config(columns, rows, buttons, spacing, padding, borderless) call of
load.py lines 66 to 73.  That call passes six positional arguments to the
ten-required-field dataclass of config/classes.py, so it raises TypeError
(four missing required positional arguments) and no Config value is ever
constructed. -/
def interpret_config (l : ConfigLoader) : Except PyErr Config := do
  validate_dimensions l.columns l.rows
  validate_buttons l.rows.asInt l.columns.asInt l.buttons
  validate_styling l.spacing l.padding l.borderless
  Except.error PyErr.typeError

/-- ConfigLoader.get_config on an already-parsed document mapping: assign
the six attributes from the document (padding and spacing defaulting to 5,
borderless to False), interpret, and catch CustomException into the
human-readable error-string result.  File-access and YAML parse errors are
outside the model; any other exception escapes uncaught. -/
def ConfigLoader.get_config (l : ConfigLoader)
    (yaml_config : List (String × YamlVal)) : Except PyErr ConfigResult :=
  let doc := YamlVal.vdict yaml_config
  let l' := { l with
    columns := doc.get "columns" YamlVal.vnull
    rows := doc.get "rows" YamlVal.vnull
    buttons := doc.get "buttons" YamlVal.vnull
    padding := doc.get "padding" (YamlVal.vint 5)
    spacing := doc.get "spacing" (YamlVal.vint 5)
    borderless := doc.get "borderless" (YamlVal.vbool false) }
  match interpret_config l' with
  | Except.ok c => Except.ok (ConfigResult.config c)
  | Except.error (PyErr.customException msg) =>
    Except.ok (ConfigResult.errorString
      ("Error parsing config file. Reason: " ++ msg))
  | Except.error e => Except.error e

-- ---------------------------------------------------------------------------
-- Pure views of a button used in the claim statements
-- ---------------------------------------------------------------------------

/-- The states list of a button dict (empty for a non-list entry). -/
def statesOf (b : YamlVal) : List YamlVal :=
  (b.get "states" (YamlVal.vstr "")).asList

/-- The raw position entry of a button dict. -/
def positionOf (b : YamlVal) : YamlVal :=
  b.get "position" (YamlVal.vstr "")

/-- The grid key of a button: the int values of the first two position
elements (junk key (0, 0) for malformed positions, which never validate). -/
def posKeyOf (b : YamlVal) : Int × Int :=
  match (positionOf b).asList with
  | x :: y :: _ => (x.asInt, y.asInt)
  | _ => (0, 0)

/-- The raw affects_buttons entry of a button dict (None when absent). -/
def affectsOf (b : YamlVal) : YamlVal :=
  b.get "affects_buttons" YamlVal.vnull

/-- Whether a state dict declares the given integer id, by the Python
comparison state["id"] == n. -/
def state_declares_id (s : YamlVal) (n : Int) : Bool :=
  pyEqInt (s.get "id" YamlVal.vnull) n

/-- Whether a value is a dict carrying an "id" entry (the well-formedness
under which contains_id cannot raise). -/
def hasIdEntry : YamlVal → Bool
  | .vdict d => d.any (fun p => p.1 == "id")
  | _ => false

-- ---------------------------------------------------------------------------
-- Basic lemmas
-- ---------------------------------------------------------------------------

instance exceptDecEq {ε α : Type} [DecidableEq ε] [DecidableEq α] :
    DecidableEq (Except ε α) := fun x y =>
  match x, y with
  | .ok a, .ok b =>
    if h : a = b then isTrue (by rw [h])
    else isFalse (fun hc => h (Except.ok.inj hc))
  | .error e, .error f =>
    if h : e = f then isTrue (by rw [h])
    else isFalse (fun hc => h (Except.error.inj hc))
  | .ok _, .error _ => isFalse (fun hc => Except.noConfusion hc)
  | .error _, .ok _ => isFalse (fun hc => Except.noConfusion hc)

theorem except_bind_ok {α β : Type} (a : α) (f : α → Except PyErr β) :
    (Except.ok a >>= f) = f a := rfl

theorem except_bind_err {α β : Type} (e : PyErr) (f : α → Except PyErr β) :
    ((Except.error e : Except PyErr α) >>= f) = Except.error e := rfl

theorem except_bind_eq_ok {α β : Type} {x : Except PyErr α}
    {f : α → Except PyErr β} {b : β} (h : x >>= f = Except.ok b) :
    ∃ a, x = Except.ok a ∧ f a = Except.ok b := by
  cases x with
  | ok a => exact ⟨a, rfl, h⟩
  | error e => exact absurd h (by simp [except_bind_err])

theorem mem_insertSortedSet {l : List Int} {n a : Int} :
    a ∈ insertSortedSet l n ↔ a = n ∨ a ∈ l := by
  induction l with
  | nil => simp [insertSortedSet]
  | cons x xs ih =>
    rw [insertSortedSet]
    split
    · simp only [List.mem_cons]
    · split
      · next h1 h2 =>
        subst h2
        simp only [List.mem_cons]
        tauto
      · simp only [List.mem_cons, ih]
        tauto

theorem mem_stateIdSet {states : List YamlVal} {x : Int} :
    x ∈ stateIdSet states ↔ ∃ s ∈ states, idIntOf s = some x := by
  induction states with
  | nil => simp [stateIdSet]
  | cons s rest ih =>
    rw [stateIdSet]
    cases hs : idIntOf s with
    | some n =>
      rw [mem_insertSortedSet]
      simp only [List.mem_cons, ih]
      constructor
      · rintro (rfl | ⟨s', hs', hx⟩)
        · exact ⟨s, Or.inl rfl, hs⟩
        · exact ⟨s', Or.inr hs', hx⟩
      · rintro ⟨s', rfl | hs', hx⟩
        · rw [hs] at hx
          exact Or.inl (Option.some.inj hx).symm
        · exact Or.inr ⟨s', hs', hx⟩
    | none =>
      simp only [List.mem_cons, ih]
      constructor
      · rintro ⟨s', hs', hx⟩
        exact ⟨s', Or.inr hs', hx⟩
      · rintro ⟨s', rfl | hs', hx⟩
        · rw [hs] at hx
          exact absurd hx (by simp)
        · exact ⟨s', hs', hx⟩

/-- get_state_ids cannot raise on a list of dicts: state.get never fails
and set.add is total, so only a non-dict element (AttributeError) can stop
it. -/
theorem get_state_ids_of_dicts {states : List YamlVal}
    (h : ∀ s ∈ states, s.isDict = true) :
    ∃ l, get_state_ids states = Except.ok l := by
  have aux : ∀ (states : List YamlVal) (acc : PySet),
      (∀ s ∈ states, s.isDict = true) →
      ∃ p, get_state_ids_aux acc states = Except.ok p := by
    intro states
    induction states with
    | nil => exact fun acc _ => ⟨acc, rfl⟩
    | cons s rest ih =>
      intro acc hall
      have hs : s.isDict = true := hall s (List.mem_cons_self s rest)
      have hrest : ∀ s2 ∈ rest, s2.isDict = true :=
        fun s2 hs2 => hall s2 (List.mem_cons_of_mem s hs2)
      cases s with
      | vdict d =>
        rw [get_state_ids_aux]
        by_cases hint : ((YamlVal.vdict d).get "id" YamlVal.vnull).isInt = true
        · rw [if_pos hint]
          exact ih _ hrest
        · rw [if_neg hint]
          exact ih _ hrest
      | vint n => exact absurd hs (by simp [YamlVal.isDict])
      | vbool b => exact absurd hs (by simp [YamlVal.isDict])
      | vstr t => exact absurd hs (by simp [YamlVal.isDict])
      | vlist xs => exact absurd hs (by simp [YamlVal.isDict])
      | vnull => exact absurd hs (by simp [YamlVal.isDict])
  obtain ⟨p, hp⟩ := aux states pySetEmpty h
  refine ⟨p.toList, ?_⟩
  rw [get_state_ids, hp]

theorem pySubscr_of_hasIdEntry {s : YamlVal} (h : hasIdEntry s = true) :
    pySubscr s "id" = Except.ok (s.get "id" YamlVal.vnull) := by
  cases s with
  | vdict d =>
    cases hf : d.find? (fun p => p.1 == "id") with
    | none =>
      obtain ⟨p, hp, hq⟩ := List.any_eq_true.mp h
      exact absurd hq (by simpa using List.find?_eq_none.mp hf p hp)
    | some p => simp [pySubscr, YamlVal.get, hf]
  | vint n => exact absurd h (by simp [hasIdEntry])
  | vbool b => exact absurd h (by simp [hasIdEntry])
  | vstr t => exact absurd h (by simp [hasIdEntry])
  | vlist xs => exact absurd h (by simp [hasIdEntry])
  | vnull => exact absurd h (by simp [hasIdEntry])

theorem contains_id_ok {states : List YamlVal} {code : Int}
    (h : ∀ s ∈ states, hasIdEntry s = true) :
    contains_id states code =
      Except.ok (states.any (fun s => state_declares_id s code)) := by
  induction states with
  | nil => rfl
  | cons s rest ih =>
    rw [contains_id, pySubscr_of_hasIdEntry (h s (List.mem_cons_self s rest)),
      except_bind_ok]
    cases hc : pyEqInt (s.get "id" YamlVal.vnull) code with
    | true => simp [List.any_cons, state_declares_id, hc]
    | false =>
      simp only [List.any_cons, state_declares_id, hc, Bool.false_or,
        Bool.false_eq_true, if_false]
      exact ih (fun x hx => h x (List.mem_cons_of_mem s hx))

theorem validate_state_ok {bd : String} {acc : StateAcc} {s : YamlVal}
    {acc' : StateAcc} (h : validate_state bd acc s = Except.ok acc') :
    s.isDict = true
    ∧ (s.get "id" YamlVal.vnull).isInt = true
    ∧ (s.get "id" YamlVal.vnull).asInt ∉ acc.definedIds
    ∧ (s.get "follow_up_state" (YamlVal.vint 0)).isInt = true
    ∧ acc'.definedIds = acc.definedIds ++ [(s.get "id" YamlVal.vnull).asInt]
    ∧ acc'.followUps =
        addIntSet acc.followUps
          (s.get "follow_up_state" (YamlVal.vint 0)).asInt := by
  simp only [validate_state] at h
  split at h
  · exact absurd h (by simp)
  · next hc1 =>
    split at h
    · exact absurd h (by simp)
    · next hc2 =>
      split at h
      · exact absurd h (by simp)
      · split at h
        · exact absurd h (by simp)
        · split at h
          · exact absurd h (by simp)
          · split at h
            · exact absurd h (by simp)
            · split at h
              · exact absurd h (by simp)
              · next hc7 =>
                have hdi : s.isDict = true ∧
                    (s.get "id" YamlVal.vnull).isInt = true := by
                  have := Bool.not_eq_true _ ▸ hc1
                  simpa using hc1
                cases h
                refine ⟨hdi.1, hdi.2, hc2, by simpa using hc7, rfl, rfl⟩

theorem mem_addIntSet {l : List Int} {n x : Int} :
    x ∈ addIntSet l n ↔ x = n ∨ x ∈ l := by
  rw [addIntSet]
  split
  · next hmem =>
    constructor
    · exact fun hx => Or.inr hx
    · rintro (rfl | hx)
      · exact hmem
      · exact hx
  · simp only [List.mem_append, List.mem_singleton]
    tauto

theorem validate_states_ok {bd : String} :
    ∀ {states : List YamlVal} {acc acc' : StateAcc},
      validate_states bd acc states = Except.ok acc' →
      (∀ s ∈ states, s.isDict = true
          ∧ (s.get "id" YamlVal.vnull).isInt = true
          ∧ (s.get "follow_up_state" (YamlVal.vint 0)).isInt = true)
      ∧ (∀ x, x ∈ acc'.definedIds ↔
          x ∈ acc.definedIds ∨ ∃ s ∈ states, idIntOf s = some x)
      ∧ acc'.definedIds.length = acc.definedIds.length + states.length
      ∧ (acc.definedIds.Nodup → acc'.definedIds.Nodup)
      ∧ (∀ x, x ∈ acc'.followUps ↔ x ∈ acc.followUps ∨
          ∃ s ∈ states,
            (s.get "follow_up_state" (YamlVal.vint 0)).asInt = x) := by
  intro states
  induction states with
  | nil =>
    intro acc acc' h
    rw [validate_states] at h
    cases h
    simp
  | cons s rest ih =>
    intro acc acc' h
    rw [validate_states] at h
    obtain ⟨acc₁, h1, h2⟩ := except_bind_eq_ok h
    obtain ⟨hdict, hint, hfresh, hfu, hdef, hfol⟩ := validate_state_ok h1
    obtain ⟨ihall, ihdef, ihlen, ihnodup, ihfol⟩ := ih h2
    refine ⟨?_, ?_, ?_, ?_, ?_⟩
    · intro s' hs'
      rcases List.mem_cons.mp hs' with rfl | hs'
      · exact ⟨hdict, hint, hfu⟩
      · exact ihall s' hs'
    · intro x
      rw [ihdef x, hdef]
      simp only [List.mem_append, List.mem_cons, List.not_mem_nil, or_false]
      constructor
      · rintro ((hx | rfl) | ⟨s', hs', hv⟩)
        · exact Or.inl hx
        · exact Or.inr ⟨s, Or.inl rfl, by simp [idIntOf, hint]⟩
        · exact Or.inr ⟨s', Or.inr hs', hv⟩
      · rintro (hx | ⟨s', rfl | hs', hv⟩)
        · exact Or.inl (Or.inl hx)
        · refine Or.inl (Or.inr ?_)
          simp only [idIntOf, hint, if_pos] at hv
          exact (Option.some.inj hv).symm
        · exact Or.inr ⟨s', hs', hv⟩
    · rw [ihlen, hdef, List.length_append]
      simp only [List.length_cons, List.length_nil]
      omega
    · intro hnd
      apply ihnodup
      rw [hdef]
      rw [List.nodup_append]
      exact ⟨hnd, List.nodup_singleton _,
        by simpa [List.disjoint_singleton] using hfresh⟩
    · intro x
      rw [ihfol x, hfol, mem_addIntSet]
      simp only [List.mem_cons]
      constructor
      · rintro ((rfl | hx) | ⟨s', hs', hv⟩)
        · exact Or.inr ⟨s, Or.inl rfl, rfl⟩
        · exact Or.inl hx
        · exact Or.inr ⟨s', Or.inr hs', hv⟩
      · rintro (hx | ⟨s', rfl | hs', hv⟩)
        · exact Or.inl (Or.inr hx)
        · exact Or.inl (Or.inl hv.symm)
        · exact Or.inr ⟨s', hs', hv⟩

theorem check_follow_ups_ok {bd : String} {definedIds : List Int} :
    ∀ {l : List Int}, check_follow_ups bd definedIds l = Except.ok () →
      ∀ f ∈ l, f ∈ definedIds := by
  intro l
  induction l with
  | nil => intro _ f hf; exact absurd hf (List.not_mem_nil f)
  | cons a rest ih =>
    intro h f hf
    rw [check_follow_ups] at h
    split at h
    · exact absurd h (by simp)
    · next hmem =>
      rcases List.mem_cons.mp hf with rfl | hf
      · exact not_not.mp hmem
      · exact ih h f hf

theorem validate_affects_ok {rows cols : Int} {bd : String} :
    ∀ {items : List YamlVal},
      validate_affects rows cols bd items = Except.ok () →
      ∀ a ∈ items, is_valid_dimension rows cols a = Except.ok true := by
  intro items
  induction items with
  | nil => intro _ a ha; exact absurd ha (List.not_mem_nil a)
  | cons a rest ih =>
    intro h a' ha'
    rw [validate_affects] at h
    obtain ⟨v, hv, hrest⟩ := except_bind_eq_ok h
    split at hrest
    · exact absurd hrest (by simp)
    · next hvtrue =>
      have : v = true := by
        cases v
        · simp at hvtrue
        · rfl
      subst this
      rcases List.mem_cons.mp ha' with rfl | ha'
      · exact hv
      · exact ih hrest a' ha'

theorem is_valid_dimension_ok_true {rows cols : Int} {dims : YamlVal}
    (h : is_valid_dimension rows cols dims = Except.ok true) :
    ∃ x0 x1 rest, dims = YamlVal.vlist (x0 :: x1 :: rest)
      ∧ x0.isInt = true ∧ x1.isInt = true
      ∧ 0 ≤ x0.asInt ∧ x0.asInt ≤ rows - 1
      ∧ 0 ≤ x1.asInt ∧ x1.asInt ≤ cols - 1 := by
  cases dims with
  | vlist xs =>
    cases xs with
    | nil => exact absurd h (by simp [is_valid_dimension])
    | cons x0 tail =>
      cases tail with
      | nil =>
        exact absurd h (by simp [is_valid_dimension]; split <;> simp)
      | cons x1 rest =>
        simp only [is_valid_dimension] at h
        split at h
        · exact absurd h (by simp)
        · next hx0 =>
          split at h
          · exact absurd h (by simp)
          · next hx1 =>
            split at h
            · exact absurd h (by simp)
            · next hb0 =>
              split at h
              · exact absurd h (by simp)
              · next hb1 =>
                push_neg at hb0 hb1
                exact ⟨x0, x1, rest, rfl, by simpa using hx0,
                  by simpa using hx1, by omega, by omega, by omega, by omega⟩
  | vint n => exact absurd h (by simp [is_valid_dimension])
  | vbool b => exact absurd h (by simp [is_valid_dimension])
  | vstr t => exact absurd h (by simp [is_valid_dimension])
  | vdict d => exact absurd h (by simp [is_valid_dimension])
  | vnull => exact absurd h (by simp [is_valid_dimension])

theorem pySubscr_of_get_ne {b : YamlVal} {k : String} {d : YamlVal}
    (hb : b.isDict = true) (hne : b.get k d ≠ d) :
    pySubscr b k = Except.ok (b.get k d) := by
  cases b with
  | vdict entries =>
    cases hf : entries.find? (fun p => p.1 == k) with
    | none =>
      refine absurd ?_ hne
      simp [YamlVal.get, hf]
    | some p => simp [pySubscr, YamlVal.get, hf]
  | vint n => simp [YamlVal.isDict] at hb
  | vbool x => simp [YamlVal.isDict] at hb
  | vstr t => simp [YamlVal.isDict] at hb
  | vlist xs => simp [YamlVal.isDict] at hb
  | vnull => simp [YamlVal.isDict] at hb

theorem check_affects_ok {rows cols : Int} {bd : String} {affects : YamlVal}
    {u : Unit} (h : check_affects rows cols bd affects = Except.ok u)
    (ht : affects.truthy = true) :
    ∃ items, pyIter affects = Except.ok items
      ∧ ∀ a ∈ items, is_valid_dimension rows cols a = Except.ok true := by
  rw [check_affects, if_pos ht] at h
  obtain ⟨items, hit, hva⟩ := except_bind_eq_ok h
  exact ⟨items, hit, validate_affects_ok hva⟩

/-- Everything a successful iteration of the button loop guarantees about
the button and the returned ButtonInfo. -/
theorem process_button_ok {rows cols : Int} {b : YamlVal} {info : ButtonInfo}
    (h : process_button rows cols b = Except.ok info) :
    b.isDict = true
    ∧ is_valid_dimension rows cols (positionOf b) = Except.ok true
    ∧ (b.get "states" (YamlVal.vstr "")).isList = true
    ∧ (statesOf b).length ≠ 0
    ∧ (∀ s ∈ statesOf b, s.isDict = true
        ∧ (s.get "id" YamlVal.vnull).isInt = true
        ∧ (s.get "follow_up_state" (YamlVal.vint 0)).isInt = true)
    ∧ (∀ x, x ∈ info.declaredIds ↔ ∃ s ∈ statesOf b, idIntOf s = some x)
    ∧ info.declaredIds.Nodup
    ∧ info.declaredIds.length = (statesOf b).length
    ∧ DEFAULT_STATE_ID ∈ info.declaredIds
    ∧ (1 < info.declaredIds.length → ERROR_SINK_STATE_ID ∈ info.declaredIds)
    ∧ (∀ f ∈ info.followUps, f ∈ info.declaredIds)
    ∧ (∀ x, x ∈ info.followUps ↔
        ∃ s ∈ statesOf b, (s.get "follow_up_state" (YamlVal.vint 0)).asInt = x)
    ∧ info.dims = positionOf b
    ∧ info.affectsTruthy = (affectsOf b).truthy
    ∧ info.posKey = posKeyOf b
    ∧ ((affectsOf b).truthy = true →
        ∃ items, pyIter (affectsOf b) = Except.ok items
          ∧ ∀ a ∈ items, is_valid_dimension rows cols a = Except.ok true) := by
  rw [process_button] at h
  dsimp only [] at h
  split at h
  · exact absurd h (by simp)
  · next hdict0 =>
    have hdict : b.isDict = true := by
      cases hd : b.isDict
      · exact absurd (by simp [hd]) hdict0
      · rfl
    obtain ⟨valid, hvd, h⟩ := except_bind_eq_ok h
    split at h
    · exact absurd h (by simp)
    · next hvalid =>
      have hvtrue : valid = true := by
        cases valid
        · simp at hvalid
        · rfl
      subst hvtrue
      obtain ⟨dpair, hidx, h⟩ := except_bind_eq_ok h
      obtain ⟨d0, d1⟩ := dpair
      split at h
      · exact absurd h (by simp)
      · next hstlist0 =>
        have hstlist : (b.get "states" (YamlVal.vstr "")).isList = true := by
          cases hd : (b.get "states" (YamlVal.vstr "")).isList
          · exact absurd (by simp [hd]) hstlist0
          · rfl
        split at h
        · exact absurd h (by simp)
        · next hstlen0 =>
          have hstlen : (statesOf b).length ≠ 0 := by
            intro hc
            exact hstlen0 (by simpa [statesOf] using hc)
          split at h
          · exact absurd h (by simp)
          · next hauto =>
            obtain ⟨acc, hacc, h⟩ := except_bind_eq_ok h
            obtain ⟨hall, hdefmem, hdeflen, hnodup, hfolmem⟩ :=
              validate_states_ok hacc
            split at h
            · exact absurd h (by simp)
            · next haffempty =>
              obtain ⟨u, htr, h⟩ := except_bind_eq_ok h
              split at h
              · exact absurd h (by simp)
              · next hdefault =>
                split at h
                · exact absurd h (by simp)
                · next hsink =>
                  obtain ⟨u', hfu, h⟩ := except_bind_eq_ok h
                  cases h
                  have hds : ∀ x, x ∈ acc.definedIds ↔
                      ∃ s ∈ statesOf b, idIntOf s = some x := by
                    intro x
                    rw [hdefmem x]
                    simp [statesOf]
                  have hfs : ∀ x, x ∈ acc.followUps ↔
                      ∃ s ∈ statesOf b,
                        (s.get "follow_up_state" (YamlVal.vint 0)).asInt = x := by
                    intro x
                    rw [hfolmem x]
                    simp [statesOf]
                  have hshape := is_valid_dimension_ok_true hvd
                  obtain ⟨x0, x1, xrest, hpos, _⟩ := hshape
                  have hxd : d0 = x0 ∧ d1 = x1 := by
                    rw [hpos] at hidx
                    simp [pyIndex01] at hidx
                    exact ⟨hidx.1.symm, hidx.2.symm⟩
                  refine ⟨hdict, hvd, hstlist, hstlen, ?_, hds, ?_, ?_, ?_,
                    ?_, ?_, hfs, rfl, rfl, ?_, ?_⟩
                  · intro s hs
                    exact hall s (by simpa [statesOf] using hs)
                  · exact hnodup (by simp)
                  · rw [hdeflen]
                    simp [statesOf]
                  · exact not_not.mp hdefault
                  · intro hlen
                    have hlen' : 1 < acc.definedIds.length := hlen
                    by_contra hns
                    have hns' : ERROR_SINK_STATE_ID ∉ acc.definedIds := hns
                    exact hsink (by simp [hlen', hns'])
                  · exact fun f hf => check_follow_ups_ok hfu f hf
                  · have hpos' : positionOf b =
                        YamlVal.vlist (x0 :: x1 :: xrest) := hpos
                    simp [posKeyOf, hpos', YamlVal.asList, hxd.1, hxd.2]
                  · exact fun htruthy => check_affects_ok htr htruthy

theorem gridFind_insert_self {g : Grid} {k : Int × Int} {v : YamlVal} :
    gridFind (gridInsert g k v) k = some v := by
  induction g with
  | nil => simp [gridInsert, gridFind]
  | cons p rest ih =>
    rw [gridInsert]
    split
    · simp [gridFind]
    · next hne =>
      rw [gridFind, if_neg hne]
      exact ih

theorem gridFind_insert_other {g : Grid} {k k' : Int × Int} {v : YamlVal}
    (h : k' ≠ k) : gridFind (gridInsert g k v) k' = gridFind g k' := by
  induction g with
  | nil =>
    rw [gridInsert, gridFind, gridFind, if_neg (fun hc => h hc.symm)]
    rfl
  | cons p rest ih =>
    rw [gridInsert]
    split
    · next heq =>
      rw [gridFind, gridFind, if_neg (fun hc => h hc.symm),
        if_neg (by rw [heq]; exact fun hc => h hc.symm)]
    · rw [gridFind, gridFind]
      by_cases hp : p.1 = k'
      · rw [if_pos hp, if_pos hp]
      · rw [if_neg hp, if_neg hp]
        exact ih

theorem gridFind_mem_values {g : Grid} {k : Int × Int} {v : YamlVal}
    (h : gridFind g k = some v) : ∃ p ∈ g, p.2 = v ∧ p.1 = k := by
  induction g with
  | nil => exact absurd h (by simp [gridFind])
  | cons p rest ih =>
    rw [gridFind] at h
    split at h
    · next heq =>
      exact ⟨p, List.mem_cons_self p rest, Option.some.inj h, heq⟩
    · obtain ⟨q, hq, hv, hk⟩ := ih h
      exact ⟨q, List.mem_cons_of_mem p hq, hv, hk⟩

theorem except_bind_eq_error {α β : Type} {x : Except PyErr α}
    {f : α → Except PyErr β} {e : PyErr} (h : x >>= f = Except.error e) :
    x = Except.error e ∨ ∃ a, x = Except.ok a ∧ f a = Except.error e := by
  cases x with
  | ok a => exact Or.inr ⟨a, rfl, h⟩
  | error e' => exact Or.inl (by simpa [except_bind_err] using h)

/-- Whether a dict value carries an entry for the given key. -/
def hasEntry : YamlVal → String → Bool
  | .vdict d, k => d.any (fun p => p.1 == k)
  | _, _ => false

theorem get_of_not_hasEntry {s : YamlVal} {k : String} {d : YamlVal}
    (h : hasEntry s k = false) : s.get k d = d := by
  cases s with
  | vdict entries =>
    cases hf : entries.find? (fun p => p.1 == k) with
    | none => simp [YamlVal.get, hf]
    | some p =>
      exfalso
      have hp := List.find?_some hf
      have hmem := List.mem_of_find?_eq_some hf
      have htrue : hasEntry (YamlVal.vdict entries) k = true := by
        simp only [hasEntry]
        exact List.any_eq_true.mpr ⟨p, hmem, hp⟩
      rw [h] at htrue
      exact Bool.false_ne_true htrue
  | vint n => rfl
  | vbool x => rfl
  | vstr t => rfl
  | vlist xs => rfl
  | vnull => rfl

theorem check_follow_ups_complete {bd : String} {ids : List Int} :
    ∀ {l : List Int}, (∀ f ∈ l, f ∈ ids) →
      check_follow_ups bd ids l = Except.ok () := by
  intro l
  induction l with
  | nil => intro _; rfl
  | cons a rest ih =>
    intro hall
    rw [check_follow_ups,
      if_neg (not_not.mpr (hall a (List.mem_cons_self a rest)))]
    exact ih (fun f hf => hall f (List.mem_cons_of_mem a hf))

theorem validate_state_err_custom {bd : String} {acc : StateAcc} {s : YamlVal}
    {e : PyErr} (h : validate_state bd acc s = Except.error e) :
    ∃ msg, e = PyErr.customException msg := by
  simp only [validate_state] at h
  split at h
  · exact ⟨_, (Except.error.inj h).symm⟩
  · split at h
    · exact ⟨_, (Except.error.inj h).symm⟩
    · split at h
      · exact ⟨_, (Except.error.inj h).symm⟩
      · split at h
        · exact ⟨_, (Except.error.inj h).symm⟩
        · split at h
          · exact ⟨_, (Except.error.inj h).symm⟩
          · split at h
            · exact ⟨_, (Except.error.inj h).symm⟩
            · split at h
              · exact ⟨_, (Except.error.inj h).symm⟩
              · exact absurd h (by simp)

theorem validate_states_err_custom {bd : String} :
    ∀ {states : List YamlVal} {acc : StateAcc} {e : PyErr},
      validate_states bd acc states = Except.error e →
      ∃ msg, e = PyErr.customException msg := by
  intro states
  induction states with
  | nil => intro acc e h; exact absurd h (by rw [validate_states]; simp)
  | cons s rest ih =>
    intro acc e h
    rw [validate_states] at h
    rcases except_bind_eq_error h with hx | ⟨acc₁, _, h2⟩
    · exact validate_state_err_custom hx
    · exact ih h2

theorem check_follow_ups_err_custom {bd : String} {ids : List Int} :
    ∀ {l : List Int} {e : PyErr},
      check_follow_ups bd ids l = Except.error e →
      ∃ msg, e = PyErr.customException msg := by
  intro l
  induction l with
  | nil => intro e h; exact absurd h (by rw [check_follow_ups]; simp)
  | cons a rest ih =>
    intro e h
    rw [check_follow_ups] at h
    split at h
    · exact ⟨_, (Except.error.inj h).symm⟩
    · exact ih h

theorem validate_affects_err_custom {rows cols : Int} {bd : String} :
    ∀ {items : List YamlVal} {e : PyErr},
      (∀ a ∈ items, ∃ v, is_valid_dimension rows cols a = Except.ok v) →
      validate_affects rows cols bd items = Except.error e →
      ∃ msg, e = PyErr.customException msg := by
  intro items
  induction items with
  | nil => intro e _ h; exact absurd h (by rw [validate_affects]; simp)
  | cons a rest ih =>
    intro e hwf h
    rw [validate_affects] at h
    obtain ⟨v, hv⟩ := hwf a (List.mem_cons_self a rest)
    rw [hv, except_bind_ok] at h
    split at h
    · exact ⟨_, (Except.error.inj h).symm⟩
    · exact ih (fun a' ha' => hwf a' (List.mem_cons_of_mem a ha')) h

/-- The shape conditions under which one button's first-pass processing
cannot raise anything but a CustomException: its position entry does not
crash is_valid_dimension, and a truthy affects_buttons entry is iterable
with entries that do not crash is_valid_dimension. -/
def buttonNoCrash (rows cols : Int) (b : YamlVal) : Prop :=
  (∃ v, is_valid_dimension rows cols (positionOf b) = Except.ok v)
  ∧ ((affectsOf b).truthy = true →
      ∃ items, pyIter (affectsOf b) = Except.ok items
        ∧ ∀ a ∈ items, ∃ v, is_valid_dimension rows cols a = Except.ok v)

theorem check_affects_err_custom {rows cols : Int} {bd : String}
    {affects : YamlVal} {e : PyErr}
    (hwf : affects.truthy = true →
      ∃ items, pyIter affects = Except.ok items
        ∧ ∀ a ∈ items, ∃ v, is_valid_dimension rows cols a = Except.ok v)
    (h : check_affects rows cols bd affects = Except.error e) :
    ∃ msg, e = PyErr.customException msg := by
  rw [check_affects] at h
  split at h
  · next ht =>
    obtain ⟨items, hit, hwfit⟩ := hwf ht
    rw [hit, except_bind_ok] at h
    exact validate_affects_err_custom hwfit h
  · exact absurd h (fun hh => Except.noConfusion hh)

theorem process_button_no_crash {rows cols : Int} {b : YamlVal}
    (hwf : buttonNoCrash rows cols b) :
    (∃ info, process_button rows cols b = Except.ok info)
    ∨ (∃ msg, process_button rows cols b =
        Except.error (PyErr.customException msg)) := by
  cases hres : process_button rows cols b with
  | ok info => exact Or.inl ⟨info, rfl⟩
  | error e =>
    refine Or.inr ?_
    suffices hc : ∃ msg, e = PyErr.customException msg by
      obtain ⟨msg, rfl⟩ := hc
      exact ⟨msg, rfl⟩
    rw [process_button] at hres
    dsimp only [] at hres
    split at hres
    · exact ⟨_, (Except.error.inj hres).symm⟩
    · next hdict0 =>
      obtain ⟨v, hvd⟩ := hwf.1
      have hvd' : is_valid_dimension rows cols
          (b.get "position" (YamlVal.vstr "")) = Except.ok v := hvd
      rw [hvd', except_bind_ok] at hres
      split at hres
      · exact ⟨_, (Except.error.inj hres).symm⟩
      · next hval =>
        have hvt : v = true := by
          cases v
          · simp at hval
          · rfl
        subst hvt
        obtain ⟨x0, x1, xr, hpos, _⟩ := is_valid_dimension_ok_true hvd'
        rw [hpos] at hres
        rw [show pyIndex01 (YamlVal.vlist (x0 :: x1 :: xr)) =
            Except.ok (x0, x1) from rfl, except_bind_ok] at hres
        split at hres
        · exact ⟨_, (Except.error.inj hres).symm⟩
        · split at hres
          · exact ⟨_, (Except.error.inj hres).symm⟩
          · split at hres
            · exact ⟨_, (Except.error.inj hres).symm⟩
            · rcases except_bind_eq_error hres with hx | ⟨acc, _, hres2⟩
              · exact validate_states_err_custom hx
              · split at hres2
                · exact ⟨_, (Except.error.inj hres2).symm⟩
                · rcases except_bind_eq_error hres2 with hx | ⟨u, _, hres3⟩
                  · exact check_affects_err_custom hwf.2 hx
                  · split at hres3
                    · exact ⟨_, (Except.error.inj hres3).symm⟩
                    · split at hres3
                      · exact ⟨_, (Except.error.inj hres3).symm⟩
                      · rcases except_bind_eq_error hres3 with hx | ⟨u', _, hres4⟩
                        · exact check_follow_ups_err_custom hx
                        · exact absurd hres4 (by simp)

theorem firstPass_no_crash {rows cols : Int} :
    ∀ {bs : List YamlVal} {g : Grid} {t : List YamlVal},
      (∀ b ∈ bs, buttonNoCrash rows cols b) →
      (∃ r, firstPass rows cols g t bs = Except.ok r)
      ∨ (∃ msg, firstPass rows cols g t bs =
          Except.error (PyErr.customException msg)) := by
  intro bs
  induction bs with
  | nil => intro g t _; exact Or.inl ⟨(g, t), rfl⟩
  | cons b rest ih =>
    intro g t hwf
    rcases process_button_no_crash
        (hwf b (List.mem_cons_self b rest)) with ⟨info, hok⟩ | ⟨msg, herr⟩
    · have : firstPass rows cols g t (b :: rest) =
          firstPass rows cols (gridInsert g info.posKey b)
            (if info.affectsTruthy then addTrigger t info.dims else t) rest := by
        rw [firstPass, hok, except_bind_ok]
      rw [this]
      exact ih (fun b' hb' => hwf b' (List.mem_cons_of_mem b hb'))
    · refine Or.inr ⟨msg, ?_⟩
      rw [firstPass, herr, except_bind_err]

theorem firstPass_ok_forall {rows cols : Int} :
    ∀ {bs : List YamlVal} {g : Grid} {t : List YamlVal}
      {g' : Grid} {t' : List YamlVal},
      firstPass rows cols g t bs = Except.ok (g', t') →
      ∀ b ∈ bs, ∃ info, process_button rows cols b = Except.ok info := by
  intro bs
  induction bs with
  | nil =>
    intro g t g' t' _ b hb
    exact absurd hb (List.not_mem_nil b)
  | cons b0 rest ih =>
    intro g t g' t' h b hb
    rw [firstPass] at h
    obtain ⟨info, hi, h2⟩ := except_bind_eq_ok h
    rcases List.mem_cons.mp hb with rfl | hb
    · exact ⟨info, hi⟩
    · exact ih h2 b hb

theorem mem_addTrigger {t : List YamlVal} {d x : YamlVal} :
    x ∈ addTrigger t d ↔ x = d ∨ x ∈ t := by
  rw [addTrigger]
  split
  · next hmem =>
    constructor
    · exact fun hx => Or.inr hx
    · rintro (rfl | hx)
      · exact hmem
      · exact hx
  · simp only [List.mem_append, List.mem_singleton]
    tauto

theorem firstPass_grid_values {rows cols : Int} :
    ∀ {bs : List YamlVal} {g : Grid} {t : List YamlVal}
      {g' : Grid} {t' : List YamlVal},
      firstPass rows cols g t bs = Except.ok (g', t') →
      ∀ k v, gridFind g' k = some v →
        gridFind g k = some v
        ∨ ∃ b ∈ bs, v = b ∧ ∃ info,
            process_button rows cols b = Except.ok info ∧ info.posKey = k := by
  intro bs
  induction bs with
  | nil =>
    intro g t g' t' h k v hv
    rw [firstPass] at h
    cases h
    exact Or.inl hv
  | cons b0 rest ih =>
    intro g t g' t' h k v hv
    rw [firstPass] at h
    obtain ⟨info, hi, h2⟩ := except_bind_eq_ok h
    rcases ih h2 k v hv with hleft | ⟨b, hb, hvb, info', hi', hk'⟩
    · by_cases hk : k = info.posKey
      · subst hk
        rw [gridFind_insert_self] at hleft
        exact Or.inr ⟨b0, List.mem_cons_self b0 rest,
          (Option.some.inj hleft).symm, info, hi, rfl⟩
      · rw [gridFind_insert_other hk] at hleft
        exact Or.inl hleft
    · exact Or.inr ⟨b, List.mem_cons_of_mem b0 hb, hvb, info', hi', hk'⟩

theorem firstPass_grid_preserved {rows cols : Int} :
    ∀ {bs : List YamlVal} {g : Grid} {t : List YamlVal}
      {g' : Grid} {t' : List YamlVal},
      firstPass rows cols g t bs = Except.ok (g', t') →
      ∀ k v, gridFind g k = some v →
        (∀ b ∈ bs, ∀ info,
          process_button rows cols b = Except.ok info → info.posKey ≠ k) →
        gridFind g' k = some v := by
  intro bs
  induction bs with
  | nil =>
    intro g t g' t' h k v hv _
    rw [firstPass] at h
    cases h
    exact hv
  | cons b0 rest ih =>
    intro g t g' t' h k v hv hne
    rw [firstPass] at h
    obtain ⟨info, hi, h2⟩ := except_bind_eq_ok h
    have hk : info.posKey ≠ k := hne b0 (List.mem_cons_self b0 rest) info hi
    refine ih h2 k v ?_ (fun b hb info' hi' =>
      hne b (List.mem_cons_of_mem b0 hb) info' hi')
    rw [gridFind_insert_other (fun hc => hk hc.symm)]
    exact hv

theorem firstPass_trigger_mono {rows cols : Int} :
    ∀ {bs : List YamlVal} {g : Grid} {t : List YamlVal}
      {g' : Grid} {t' : List YamlVal},
      firstPass rows cols g t bs = Except.ok (g', t') →
      ∀ d ∈ t, d ∈ t' := by
  intro bs
  induction bs with
  | nil =>
    intro g t g' t' h d hd
    rw [firstPass] at h
    cases h
    exact hd
  | cons b0 rest ih =>
    intro g t g' t' h d hd
    rw [firstPass] at h
    obtain ⟨info, hi, h2⟩ := except_bind_eq_ok h
    refine ih h2 d ?_
    split
    · exact mem_addTrigger.mpr (Or.inr hd)
    · exact hd

theorem firstPass_trigger_of_affects {rows cols : Int} :
    ∀ {bs : List YamlVal} {g : Grid} {t : List YamlVal}
      {g' : Grid} {t' : List YamlVal},
      firstPass rows cols g t bs = Except.ok (g', t') →
      ∀ b ∈ bs, ∀ info, process_button rows cols b = Except.ok info →
        info.affectsTruthy = true → info.dims ∈ t' := by
  intro bs
  induction bs with
  | nil =>
    intro g t g' t' _ b hb
    exact absurd hb (List.not_mem_nil b)
  | cons b0 rest ih =>
    intro g t g' t' h b hb info hpb htr
    rw [firstPass] at h
    obtain ⟨info0, hi0, h2⟩ := except_bind_eq_ok h
    rcases List.mem_cons.mp hb with rfl | hb
    · have : info0 = info := Except.ok.inj (hi0.symm.trans hpb)
      subst this
      refine firstPass_trigger_mono h2 info0.dims ?_
      rw [if_pos htr]
      exact mem_addTrigger.mpr (Or.inl rfl)
    · exact ih h2 b hb info hpb htr

theorem firstPass_trigger_src {rows cols : Int} :
    ∀ {bs : List YamlVal} {g : Grid} {t : List YamlVal}
      {g' : Grid} {t' : List YamlVal},
      firstPass rows cols g t bs = Except.ok (g', t') →
      ∀ d ∈ t', d ∈ t
        ∨ ∃ b ∈ bs, ∃ info, process_button rows cols b = Except.ok info
            ∧ info.affectsTruthy = true ∧ info.dims = d := by
  intro bs
  induction bs with
  | nil =>
    intro g t g' t' h d hd
    rw [firstPass] at h
    cases h
    exact Or.inl hd
  | cons b0 rest ih =>
    intro g t g' t' h d hd
    rw [firstPass] at h
    obtain ⟨info, hi, h2⟩ := except_bind_eq_ok h
    rcases ih h2 d hd with hmem | ⟨b, hb, info', hi', htr', hd'⟩
    · by_cases htr : info.affectsTruthy = true
      · rw [if_pos htr] at hmem
        rcases mem_addTrigger.mp hmem with rfl | hmem
        · exact Or.inr ⟨b0, List.mem_cons_self b0 rest, info, hi, htr, rfl⟩
        · exact Or.inl hmem
      · rw [if_neg htr] at hmem
        exact Or.inl hmem
    · exact Or.inr ⟨b, List.mem_cons_of_mem b0 hb, info', hi', htr', hd'⟩

theorem isList_ne_vstr {v : YamlVal} (h : v.isList = true) {s : String} :
    v ≠ YamlVal.vstr s := by
  intro hc
  rw [hc] at h
  simp [YamlVal.isList] at h

/-- Every value stored in the grid is a dict whose states entry is a list
of dicts; holds for the grid the first pass builds from an empty one. -/
def gridStatesOK (g : Grid) : Prop :=
  ∀ k v, gridFind g k = some v → v.isDict = true
    ∧ (v.get "states" (YamlVal.vstr "")).isList = true
    ∧ ∀ s ∈ statesOf v, s.isDict = true

/-- The shape conditions under which processing one trigger entry cannot
raise anything but a CustomException. -/
def triggerOK (g : Grid) (d : YamlVal) : Prop :=
  ∃ r c, d = YamlVal.vlist [YamlVal.vint r, YamlVal.vint c]
    ∧ ∃ btn, gridFind g (r, c) = some btn
      ∧ ∃ av, pySubscr btn "affects_buttons" = Except.ok av
        ∧ ∃ items, pyIter av = Except.ok items
          ∧ ∀ a ∈ items, ∃ a0 a1 ar, a = YamlVal.vlist (a0 :: a1 :: ar)

theorem secondPass_ok_forall {g : Grid} :
    ∀ {ts : List YamlVal}, secondPass g ts = Except.ok () →
      ∀ d ∈ ts, processTrigger g d = Except.ok () := by
  intro ts
  induction ts with
  | nil => intro _ d hd; exact absurd hd (List.not_mem_nil d)
  | cons d0 rest ih =>
    intro h d hd
    rw [secondPass] at h
    obtain ⟨u, h1, h2⟩ := except_bind_eq_ok h
    rcases List.mem_cons.mp hd with rfl | hd
    · cases u; exact h1
    · exact ih h2 d hd

theorem check_id_listings_ok_forall {row col : Int} {ids0 : List Int} :
    ∀ {listings : List (List Int)},
      check_id_listings row col ids0 listings = Except.ok () →
      ∀ l ∈ listings, l.length ≠ 1 ∧ l = ids0 := by
  intro listings
  induction listings with
  | nil => intro _ l hl; exact absurd hl (List.not_mem_nil l)
  | cons l0 rest ih =>
    intro h l hl
    rw [check_id_listings] at h
    split at h
    · exact absurd h (by simp)
    · next hlen =>
      split at h
      · exact absurd h (by simp)
      · next heq =>
        rcases List.mem_cons.mp hl with rfl | hl
        · exact ⟨by simpa using hlen, not_not.mp heq⟩
        · exact ih h l hl

theorem check_id_listings_err_custom {row col : Int} {ids0 : List Int} :
    ∀ {listings : List (List Int)} {e : PyErr},
      check_id_listings row col ids0 listings = Except.error e →
      ∃ msg, e = PyErr.customException msg := by
  intro listings
  induction listings with
  | nil =>
    intro e h
    exact absurd h (by rw [check_id_listings]; simp)
  | cons l0 rest ih =>
    intro e h
    rw [check_id_listings] at h
    split at h
    · exact ⟨_, (Except.error.inj h).symm⟩
    · split at h
      · exact ⟨_, (Except.error.inj h).symm⟩
      · exact ih h

theorem collect_affected_ok_forall {g : Grid} {row col : Int} :
    ∀ {items : List YamlVal} {listings : List (List Int)},
      collect_affected g row col items = Except.ok listings →
      ∀ a ∈ items, ∃ a0 a1, pyIndex01 a = Except.ok (a0, a1)
        ∧ ∃ ab, gridFind g (a0.asInt, a1.asInt) = some ab
          ∧ ∃ sv ids, pySubscr ab "states" = Except.ok sv
            ∧ get_state_ids sv.asList = Except.ok ids
            ∧ ids ∈ listings := by
  intro items
  induction items with
  | nil => intro listings _ a ha; exact absurd ha (List.not_mem_nil a)
  | cons a0v rest ih =>
    intro listings h a ha
    rw [collect_affected] at h
    obtain ⟨apair, hidx, h2⟩ := except_bind_eq_ok h
    obtain ⟨a0, a1⟩ := apair
    dsimp only [] at h2
    cases hf : gridFind g (a0.asInt, a1.asInt) with
    | none =>
      rw [hf] at h2
      exact absurd h2 (by simp)
    | some ab =>
      rw [hf] at h2
      obtain ⟨sv, hsv, h3⟩ := except_bind_eq_ok h2
      obtain ⟨ids, hids, h4⟩ := except_bind_eq_ok h3
      obtain ⟨tail, htail, h5⟩ := except_bind_eq_ok h4
      have hlist : listings = ids :: tail := (Except.ok.inj h5).symm
      rcases List.mem_cons.mp ha with rfl | ha
      · exact ⟨a0, a1, hidx, ab, hf, sv, ids, hsv, hids,
          hlist ▸ List.mem_cons_self ids tail⟩
      · obtain ⟨b0, b1, hbidx, ab', hf', sv', ids', hsv', hids', hmem'⟩ :=
          ih htail a ha
        exact ⟨b0, b1, hbidx, ab', hf', sv', ids', hsv', hids',
          hlist ▸ List.mem_cons_of_mem ids hmem'⟩

theorem collect_affected_err_custom {g : Grid} {row col : Int}
    (hg : gridStatesOK g) :
    ∀ {items : List YamlVal} {e : PyErr},
      (∀ a ∈ items, ∃ a0 a1 ar, a = YamlVal.vlist (a0 :: a1 :: ar)) →
      collect_affected g row col items = Except.error e →
      ∃ msg, e = PyErr.customException msg := by
  intro items
  induction items with
  | nil =>
    intro e _ h
    exact absurd h (by rw [collect_affected]; simp)
  | cons av rest ih =>
    intro e hshape h
    obtain ⟨a0, a1, ar, hav⟩ := hshape av (List.mem_cons_self av rest)
    rw [collect_affected, hav] at h
    rw [show pyIndex01 (YamlVal.vlist (a0 :: a1 :: ar)) =
        Except.ok (a0, a1) from rfl, except_bind_ok] at h
    dsimp only [] at h
    cases hf : gridFind g (a0.asInt, a1.asInt) with
    | none =>
      rw [hf] at h
      exact ⟨_, (Except.error.inj h).symm⟩
    | some ab =>
      rw [hf] at h
      dsimp only [] at h
      obtain ⟨habd, hablist, habdicts⟩ := hg _ ab hf
      rw [pySubscr_of_get_ne habd (isList_ne_vstr hablist),
        except_bind_ok] at h
      have habdicts' : ∀ s ∈ (ab.get "states" (YamlVal.vstr "")).asList,
          s.isDict = true := habdicts
      obtain ⟨lids, hlids⟩ := get_state_ids_of_dicts habdicts'
      rw [hlids, except_bind_ok] at h
      rcases except_bind_eq_error h with hx | ⟨tail, _, h5⟩
      · exact ih (fun a ha => hshape a (List.mem_cons_of_mem av ha)) hx
      · exact absurd h5 (by simp)

theorem processTrigger_err_custom {g : Grid} {d : YamlVal} {e : PyErr}
    (hg : gridStatesOK g) (ht : triggerOK g d)
    (h : processTrigger g d = Except.error e) :
    ∃ msg, e = PyErr.customException msg := by
  obtain ⟨r, c, hd, btn, hbtn, av, hav, items, hit, hshape⟩ := ht
  have hparse : parseBtnDims d = Except.ok (r, c) := by rw [hd]; rfl
  rw [processTrigger, hparse, except_bind_ok] at h
  dsimp only [] at h
  rw [hbtn] at h
  dsimp only [] at h
  obtain ⟨hbd, hblist, hbdicts⟩ := hg _ btn hbtn
  have hbdicts' : ∀ s ∈ (btn.get "states" (YamlVal.vstr "")).asList,
      s.isDict = true := hbdicts
  obtain ⟨lids, hlids⟩ := get_state_ids_of_dicts hbdicts'
  rw [except_bind_ok, hav, except_bind_ok,
    pySubscr_of_get_ne hbd (isList_ne_vstr hblist), except_bind_ok,
    hlids, except_bind_ok, hit, except_bind_ok] at h
  rcases except_bind_eq_error h with hx | ⟨listings, _, h2⟩
  · exact collect_affected_err_custom hg hshape hx
  · exact check_id_listings_err_custom h2

theorem secondPass_err_custom {g : Grid} (hg : gridStatesOK g) :
    ∀ {ts : List YamlVal} {e : PyErr},
      (∀ d ∈ ts, triggerOK g d) →
      secondPass g ts = Except.error e →
      ∃ msg, e = PyErr.customException msg := by
  intro ts
  induction ts with
  | nil =>
    intro e _ h
    exact absurd h (by rw [secondPass]; simp)
  | cons d0 rest ih =>
    intro e hts h
    rw [secondPass] at h
    rcases except_bind_eq_error h with hx | ⟨u, _, h2⟩
    · exact processTrigger_err_custom hg
        (hts d0 (List.mem_cons_self d0 rest)) hx
    · exact ih (fun d hd => hts d (List.mem_cons_of_mem d0 hd)) h2

/-- The grid key an affects_buttons entry denotes: the int values of its
first two elements (junk key for malformed entries, which never validate). -/
def dimKeyOf (a : YamlVal) : Int × Int :=
  match a.asList with
  | x :: y :: _ => (x.asInt, y.asInt)
  | _ => (0, 0)

theorem parseBtnDims_ok {d : YamlVal} {r c : Int}
    (h : parseBtnDims d = Except.ok (r, c)) :
    d = YamlVal.vlist [YamlVal.vint r, YamlVal.vint c] := by
  simp only [parseBtnDims] at h
  split at h
  · next r' c' =>
    obtain ⟨hr, hc⟩ := Prod.mk.injEq .. ▸ Except.ok.inj h
    rw [← hr, ← hc]
  · exact absurd h (by simp)

theorem truthy_ne_vnull {v : YamlVal} (h : v.truthy = true) :
    v ≠ YamlVal.vnull := by
  intro hc
  rw [hc] at h
  simp [YamlVal.truthy] at h

theorem truthy_affects_is_list {rows cols : Int} {v : YamlVal}
    {items : List YamlVal} (ht : v.truthy = true)
    (hit : pyIter v = Except.ok items)
    (hall : ∀ a ∈ items, is_valid_dimension rows cols a = Except.ok true) :
    v = YamlVal.vlist items := by
  cases v with
  | vlist xs =>
    rw [show pyIter (YamlVal.vlist xs) = Except.ok xs from rfl] at hit
    rw [Except.ok.inj hit]
  | vstr s =>
    exfalso
    cases hsl : s.toList with
    | nil =>
      have hse : s = "" := by
        cases s with
        | mk data =>
          simp only [String.toList] at hsl
          rw [hsl]
      rw [hse] at ht
      simp [YamlVal.truthy] at ht
    | cons ch chs =>
      have hitems : items =
          (ch :: chs).map (fun c => YamlVal.vstr (String.singleton c)) := by
        rw [show pyIter (YamlVal.vstr s) =
          Except.ok (s.toList.map (fun c => YamlVal.vstr (String.singleton c)))
          from rfl, hsl] at hit
        exact (Except.ok.inj hit).symm
      have hmem : YamlVal.vstr (String.singleton ch) ∈ items := by
        rw [hitems]
        exact List.mem_map_of_mem _ (List.mem_cons_self ch chs)
      have := hall _ hmem
      rw [show is_valid_dimension rows cols
          (YamlVal.vstr (String.singleton ch)) = Except.ok false from rfl]
        at this
      exact absurd (Except.ok.inj this) (by simp)
  | vdict dd =>
    exfalso
    cases dd with
    | nil => simp [YamlVal.truthy] at ht
    | cons p ps =>
      have hitems : items = ((p :: ps).map (fun q => YamlVal.vstr q.1)) := by
        rw [show pyIter (YamlVal.vdict (p :: ps)) =
          Except.ok ((p :: ps).map (fun q => YamlVal.vstr q.1)) from rfl] at hit
        exact (Except.ok.inj hit).symm
      have hmem : YamlVal.vstr p.1 ∈ items := by
        rw [hitems]
        exact List.mem_map_of_mem _ (List.mem_cons_self p ps)
      have := hall _ hmem
      rw [show is_valid_dimension rows cols (YamlVal.vstr p.1) =
          Except.ok false from rfl] at this
      exact absurd (Except.ok.inj this) (by simp)
  | vint n => exact absurd hit (by simp [pyIter])
  | vbool x => exact absurd hit (by simp [pyIter])
  | vnull => exact absurd ht (by simp [YamlVal.truthy])

theorem processTrigger_ok_facts {g : Grid} {d : YamlVal}
    (h : processTrigger g d = Except.ok ()) :
    ∃ r c, parseBtnDims d = Except.ok (r, c)
      ∧ ∃ btn, gridFind g (r, c) = some btn
        ∧ ∃ av sv ids0 items listings,
            pySubscr btn "affects_buttons" = Except.ok av
            ∧ pySubscr btn "states" = Except.ok sv
            ∧ get_state_ids sv.asList = Except.ok ids0
            ∧ pyIter av = Except.ok items
            ∧ collect_affected g r c items = Except.ok listings
            ∧ check_id_listings r c ids0 listings = Except.ok () := by
  rw [processTrigger] at h
  obtain ⟨rc, hparse, h⟩ := except_bind_eq_ok h
  obtain ⟨r, c⟩ := rc
  dsimp only [] at h
  cases hf : gridFind g (r, c) with
  | none =>
    rw [hf] at h
    dsimp only [] at h
    rw [except_bind_err] at h
    exact absurd h (by simp)
  | some btn =>
    rw [hf] at h
    dsimp only [] at h
    rw [except_bind_ok] at h
    obtain ⟨av, hav, h⟩ := except_bind_eq_ok h
    obtain ⟨sv, hsv, h⟩ := except_bind_eq_ok h
    obtain ⟨ids0, hids, h⟩ := except_bind_eq_ok h
    obtain ⟨items, hit, h⟩ := except_bind_eq_ok h
    obtain ⟨listings, hcol, hchk⟩ := except_bind_eq_ok h
    exact ⟨r, c, hparse, btn, hf, av, sv, ids0, items, listings,
      hav, hsv, hids, hit, hcol, hchk⟩

theorem firstPass_grid_of_distinct {rows cols : Int} :
    ∀ {bs : List YamlVal} {g : Grid} {t : List YamlVal}
      {g' : Grid} {t' : List YamlVal},
      firstPass rows cols g t bs = Except.ok (g', t') →
      List.Pairwise (fun b1 b2 => posKeyOf b1 ≠ posKeyOf b2) bs →
      (∀ b ∈ bs, gridFind g (posKeyOf b) = none) →
      ∀ b ∈ bs, gridFind g' (posKeyOf b) = some b := by
  intro bs
  induction bs with
  | nil =>
    intro g t g' t' _ _ _ b hb
    exact absurd hb (List.not_mem_nil b)
  | cons b0 rest ih =>
    intro g t g' t' h hpw hnone b hb
    rw [firstPass] at h
    obtain ⟨info, hi, h2⟩ := except_bind_eq_ok h
    obtain ⟨hhead, hrest⟩ := List.pairwise_cons.mp hpw
    have hkey : info.posKey = posKeyOf b0 := by
      obtain ⟨_, _, _, _, _, _, _, _, _, _, _, _, _, _, hk, _⟩ :=
        process_button_ok hi
      exact hk
    rcases List.mem_cons.mp hb with rfl | hb
    · refine firstPass_grid_preserved h2 (posKeyOf b) b ?_ ?_
      · rw [hkey, gridFind_insert_self]
      · intro b' hb' info' hi' hc
        have hk' : info'.posKey = posKeyOf b' := by
          obtain ⟨_, _, _, _, _, _, _, _, _, _, _, _, _, _, hk', _⟩ :=
            process_button_ok hi'
          exact hk'
        exact hhead b' hb' (hc ▸ hk' ▸ rfl)
    · refine ih h2 hrest ?_ b hb
      intro b' hb'
      rw [hkey, gridFind_insert_other
        (fun hc => hhead b' hb' hc.symm)]
      exact hnone b' (List.mem_cons_of_mem b0 hb')

theorem posKeyOf_of_position {b : YamlVal} {r c : Int}
    (h : positionOf b = YamlVal.vlist [YamlVal.vint r, YamlVal.vint c]) :
    posKeyOf b = (r, c) := by
  rw [posKeyOf, h]
  rfl

/-- Under two-int distinct positions, a successful first pass from the
empty state yields a grid of validated buttons and a trigger set whose
entries the second pass can process without crashing. -/
theorem firstPass_invariants {rows cols : Int} {buttons : List YamlVal}
    {g : Grid} {t : List YamlVal}
    (hpos2 : ∀ b ∈ buttons, b.isDict = true →
      ∃ r c, positionOf b = YamlVal.vlist [YamlVal.vint r, YamlVal.vint c])
    (hdist : List.Pairwise (fun b1 b2 => posKeyOf b1 ≠ posKeyOf b2) buttons)
    (h1 : firstPass rows cols [] [] buttons = Except.ok (g, t)) :
    gridStatesOK g ∧ ∀ d ∈ t, triggerOK g d := by
  constructor
  · intro k v hfind
    rcases firstPass_grid_values h1 k v hfind with hleft | ⟨b, hb, rfl, _, hi, _⟩
    · exact absurd hleft (by rw [gridFind]; simp)
    · obtain ⟨hd, _, hsl, _, hall, _⟩ := process_button_ok hi
      exact ⟨hd, hsl, fun s hs => (hall s hs).1⟩
  · intro d hd
    rcases firstPass_trigger_src h1 d hd with hmem | ⟨b, hb, info, hi, htr, rfl⟩
    · exact absurd hmem (List.not_mem_nil d)
    · obtain ⟨hdict, _, _, _, _, _, _, _, _, _, _, _, hdims, haf, _, htruthy⟩ :=
        process_button_ok hi
      obtain ⟨r, c, hpos⟩ := hpos2 b hb hdict
      obtain ⟨items, hit, hiva⟩ := htruthy (haf ▸ htr)
      refine ⟨r, c, by rw [hdims, hpos], b, ?_, affectsOf b, ?_, items, hit, ?_⟩
      · have := firstPass_grid_of_distinct h1 hdist
          (fun b' _ => by rw [gridFind]) b hb
        rw [posKeyOf_of_position hpos] at this
        exact this
      · exact pySubscr_of_get_ne hdict (truthy_ne_vnull (haf ▸ htr))
      · intro a ha
        obtain ⟨a0, a1, ar, haeq, _⟩ := is_valid_dimension_ok_true (hiva a ha)
        exact ⟨a0, a1, ar, haeq⟩

/-- Under non-crashing buttons with two-int distinct positions, the whole
two-pass validation either succeeds or fails with a CustomException; no
other exception escapes. -/
theorem validate_buttons_no_crash {rows cols : Int} {buttons : List YamlVal}
    (hpos2 : ∀ b ∈ buttons, b.isDict = true →
      ∃ r c, positionOf b = YamlVal.vlist [YamlVal.vint r, YamlVal.vint c])
    (hwf : ∀ b ∈ buttons, buttonNoCrash rows cols b)
    (hdist : List.Pairwise (fun b1 b2 => posKeyOf b1 ≠ posKeyOf b2) buttons) :
    validate_buttons rows cols (YamlVal.vlist buttons) = Except.ok ()
    ∨ ∃ msg, validate_buttons rows cols (YamlVal.vlist buttons) =
        Except.error (PyErr.customException msg) := by
  rw [validate_buttons, if_neg (by simp [YamlVal.isList])]
  rcases @firstPass_no_crash rows cols buttons [] [] hwf with
    ⟨⟨g, t⟩, hok⟩ | ⟨msg, herr⟩
  · have hok' : firstPass rows cols [] []
        (YamlVal.vlist buttons).asList = Except.ok (g, t) := hok
    rw [hok', except_bind_ok]
    obtain ⟨hg, hts⟩ := firstPass_invariants hpos2 hdist hok
    cases hsp : secondPass g t with
    | ok u => cases u; exact Or.inl hsp
    | error e =>
      obtain ⟨msg, rfl⟩ := secondPass_err_custom hg hts hsp
      exact Or.inr ⟨msg, hsp⟩
  · have herr' : firstPass rows cols [] []
        (YamlVal.vlist buttons).asList =
          Except.error (PyErr.customException msg) := herr
    rw [herr', except_bind_err]
    exact Or.inr ⟨msg, rfl⟩

/-- When validation succeeds on a distinct-position document, every
affects_buttons entry of every truthy-affects button resolves to a button
of the document whose get_state_ids listing (the list(set) the program
compares) is the very listing of the triggering button, and that listing is
not of length one. -/
theorem success_link_resolution {rows cols : Int} {buttons : List YamlVal}
    {g : Grid} {t : List YamlVal}
    (hdist : List.Pairwise (fun b1 b2 => posKeyOf b1 ≠ posKeyOf b2) buttons)
    (h1 : firstPass rows cols [] [] buttons = Except.ok (g, t))
    (h2 : secondPass g t = Except.ok ())
    {b : YamlVal} (hb : b ∈ buttons)
    (htruthy : (affectsOf b).truthy = true) :
    ∀ a ∈ (affectsOf b).asList,
      ∃ b' ∈ buttons, posKeyOf b' = dimKeyOf a
        ∧ ∃ l, get_state_ids (statesOf b) = Except.ok l
            ∧ get_state_ids (statesOf b') = Except.ok l
            ∧ l.length ≠ 1 := by
  intro a ha
  obtain ⟨info, hi⟩ := firstPass_ok_forall h1 b hb
  obtain ⟨hdict, _, hsl, _, hall, _, _, _, _, _, _, _, hdims, haf, _, htfact⟩ :=
    process_button_ok hi
  obtain ⟨items0, hit0, hiva⟩ := htfact (haf ▸ htruthy)
  have hdmem : info.dims ∈ t :=
    firstPass_trigger_of_affects h1 b hb info hi (haf ▸ htruthy)
  have hpt : processTrigger g info.dims = Except.ok () :=
    secondPass_ok_forall h2 _ hdmem
  obtain ⟨r, c, hparse, btn, hbtn, av, sv, ids0, items, listings,
    hav, hsv, hids, hit, hcol, hchk⟩ := processTrigger_ok_facts hpt
  -- the trigger resolves to b itself
  have hposb : positionOf b = YamlVal.vlist [YamlVal.vint r, YamlVal.vint c] := by
    rw [← hdims]
    exact parseBtnDims_ok hparse
  have hgb : gridFind g (posKeyOf b) = some b :=
    firstPass_grid_of_distinct h1 hdist (fun b' _ => by rw [gridFind]) b hb
  rw [posKeyOf_of_position hposb] at hgb
  have hbtn_eq : btn = b := by
    rw [hgb] at hbtn
    exact (Option.some.inj hbtn).symm
  subst hbtn_eq
  -- determinism of the subscripts
  have hav' : av = affectsOf btn := by
    rw [pySubscr_of_get_ne hdict (truthy_ne_vnull htruthy)] at hav
    exact (Except.ok.inj hav).symm
  have hsv' : sv = btn.get "states" (YamlVal.vstr "") := by
    rw [pySubscr_of_get_ne hdict (isList_ne_vstr hsl)] at hsv
    exact (Except.ok.inj hsv).symm
  have hids0 : get_state_ids (statesOf btn) = Except.ok ids0 := by
    rw [hsv'] at hids
    exact hids
  have hlst : affectsOf btn = YamlVal.vlist items0 :=
    truthy_affects_is_list htruthy hit0 hiva
  have hitems : items = items0 := by
    rw [hav', hlst] at hit
    exact (Except.ok.inj ((show pyIter (YamlVal.vlist items0) =
      Except.ok items0 from rfl).symm.trans hit)).symm
  have hamem0 : a ∈ items0 := by
    rw [hlst] at ha
    exact ha
  have hamem : a ∈ items := by rw [hitems]; exact hamem0
  obtain ⟨a0, a1, haidx, ab, habf, sv', ids', hsv'', hids', hmeml⟩ :=
    collect_affected_ok_forall hcol a hamem
  obtain ⟨hlen1, hids_eq⟩ := check_id_listings_ok_forall hchk ids' hmeml
  -- the resolved button is a document button
  rcases firstPass_grid_values h1 _ ab habf with
    hleft | ⟨b', hb', hab, info', hi', hk'⟩
  · exact absurd hleft (by rw [gridFind]; simp)
  · obtain ⟨hd', _, hsl', _, _, _, _, _, _, _, _, _, _, _, hkey', _⟩ :=
      process_button_ok hi'
    subst hab
    have hsv3 : sv' = ab.get "states" (YamlVal.vstr "") := by
      rw [pySubscr_of_get_ne hd' (isList_ne_vstr hsl')] at hsv''
      exact (Except.ok.inj hsv'').symm
    have hids2 : get_state_ids (statesOf ab) = Except.ok ids' := by
      rw [hsv3] at hids'
      exact hids'
    -- a has the validated two-element-int shape, giving its grid key
    obtain ⟨w0, w1, wr, haeq, _⟩ := is_valid_dimension_ok_true (hiva a hamem0)
    have hdk : dimKeyOf a = (w0.asInt, w1.asInt) := by
      rw [haeq]
      rfl
    have hwa : w0 = a0 ∧ w1 = a1 := by
      rw [haeq] at haidx
      rw [show pyIndex01 (YamlVal.vlist (w0 :: w1 :: wr)) =
        Except.ok (w0, w1) from rfl] at haidx
      have := Except.ok.inj haidx
      exact ⟨congrArg Prod.fst this, congrArg Prod.snd this⟩
    have hkeyeq : posKeyOf ab = dimKeyOf a := by
      rw [← hkey', hk', hdk, hwa.1, hwa.2]
    refine ⟨ab, hb', hkeyeq, ids0, hids0, ?_, ?_⟩
    · rw [hids2, hids_eq]
    · rw [← hids_eq]
      exact hlen1


/-- C1 (code_bug evidence): a button whose position entry is the
one-element list [0] makes get_config raise an uncaught IndexError: the
outcome is neither a Config nor an error string, refuting the claim that
no input terminates a third way.  The spec contract (GridConfig or
ValidationError) is the clear intent; is_valid_dimension subscripts the
list before any length check. -/
theorem claim_C1_short_position_crashes_get_config :
    ConfigLoader.get_config { config_path := "config.yml" }
      [("columns", YamlVal.vint 1), ("rows", YamlVal.vint 1),
       ("buttons", YamlVal.vlist [YamlVal.vdict
         [("position", YamlVal.vlist [YamlVal.vint 0]),
          ("states", YamlVal.vlist [YamlVal.vdict [("id", YamlVal.vint 0)]])]])]
      = Except.error PyErr.indexError := by rfl

/-- C3 (counterexample): at exit code 1 with a single state of id 0, the
function returns 1, which equals the code, yet no state declares id 1; the
claimed if-and-only-if fails because the error-sink id coincides with the
code. -/
theorem claim_C3_counterexample :
    ¬ ((get_state_id_from_exit_code [YamlVal.vdict [("id", YamlVal.vint 0)]] 1
          = Except.ok 1) ↔
        ∃ s ∈ [YamlVal.vdict [("id", YamlVal.vint 0)]],
          state_declares_id s 1 = true) := by decide

/-- C3 (amended): over state lists whose elements are dicts carrying an id
entry (the domain on which contains_id cannot raise), the function returns
the code whenever some state declares it and the error-sink id 1 otherwise,
and for every code other than 1 the claimed biconditional does hold. -/
theorem claim_C3_amended (states : List YamlVal) (code : Int)
    (hwf : ∀ s ∈ states, hasIdEntry s = true) :
    ((∃ s ∈ states, state_declares_id s code = true) →
        get_state_id_from_exit_code states code = Except.ok code)
    ∧ ((¬ ∃ s ∈ states, state_declares_id s code = true) →
        get_state_id_from_exit_code states code = Except.ok ERROR_SINK_STATE_ID)
    ∧ (code ≠ ERROR_SINK_STATE_ID →
        (get_state_id_from_exit_code states code = Except.ok code ↔
          ∃ s ∈ states, state_declares_id s code = true)) := by
  have hc := @contains_id_ok states code hwf
  rw [get_state_id_from_exit_code, hc, except_bind_ok]
  cases hany : states.any (fun s => state_declares_id s code) with
  | true =>
    have hyes : ∃ s ∈ states, state_declares_id s code = true := by
      simpa [List.any_eq_true] using hany
    have hif : (if (!true) = true
          then (Except.ok ERROR_SINK_STATE_ID : Except PyErr Int)
          else Except.ok code) = Except.ok code := by simp
    rw [hif]
    exact ⟨fun _ => rfl, fun hno => absurd hyes hno,
      fun _ => ⟨fun _ => hyes, fun _ => rfl⟩⟩
  | false =>
    have hno : ¬ ∃ s ∈ states, state_declares_id s code = true := by
      simpa [List.any_eq_true] using hany
    have hif : (if (!false) = true
          then (Except.ok ERROR_SINK_STATE_ID : Except PyErr Int)
          else Except.ok code) = Except.ok ERROR_SINK_STATE_ID := by simp
    rw [hif]
    refine ⟨fun hyes => absurd hyes hno, fun _ => rfl,
      fun hne => ⟨fun he => ?_, fun hyes => absurd hyes hno⟩⟩
    exact absurd (Except.ok.inj he).symm hne

/-- C3 (witness for the amended theorem): a declared code is returned, an
undeclared one falls back to the sink id 1. -/
theorem claim_C3_witness :
    get_state_id_from_exit_code
      [YamlVal.vdict [("id", YamlVal.vint 0)],
       YamlVal.vdict [("id", YamlVal.vint 7)]] 7 = Except.ok 7
    ∧ get_state_id_from_exit_code
      [YamlVal.vdict [("id", YamlVal.vint 0)]] 5 = Except.ok 1 :=
  ⟨(claim_C3_amended _ 7 (by decide)).1 (by decide),
   (claim_C3_amended _ 5 (by decide)).2.1 (by decide)⟩

/-- C8: the result of get_config is a function of the parsed document
alone; the mutable loader attributes a previous run may have left behind are
all overwritten before interpretation, so two loaders in arbitrary states
agree on every document, and in particular validating the same document
twice yields structurally equal results. -/
theorem claim_C8_get_config_deterministic (l₁ l₂ : ConfigLoader)
    (doc : List (String × YamlVal)) :
    l₁.get_config doc = l₂.get_config doc := rfl

/-- C9: a concrete document with two well-formed button entries at the same
grid position (0, 0) is not rejected by any of the three validations (so
validation proper succeeds on it), and in the button_grid map handed to the
cross-button second pass the key (0, 0) holds the later entry, which
differs from the earlier one. -/
theorem claim_C9_duplicate_position_accepted_later_wins :
    (validate_dimensions (YamlVal.vint 1) (YamlVal.vint 1) = Except.ok ()
      ∧ validate_buttons 1 1 (YamlVal.vlist
         [YamlVal.vdict [("position", YamlVal.vlist [YamlVal.vint 0, YamlVal.vint 0]),
            ("states", YamlVal.vlist [YamlVal.vdict [("id", YamlVal.vint 0), ("txt", YamlVal.vstr "first")]])],
          YamlVal.vdict [("position", YamlVal.vlist [YamlVal.vint 0, YamlVal.vint 0]),
            ("states", YamlVal.vlist [YamlVal.vdict [("id", YamlVal.vint 0), ("txt", YamlVal.vstr "second")]])]])
        = Except.ok ()
      ∧ validate_styling (YamlVal.vint 5) (YamlVal.vint 5)
          (YamlVal.vbool false) = Except.ok ())
    ∧ firstPass 1 1 [] []
        [YamlVal.vdict [("position", YamlVal.vlist [YamlVal.vint 0, YamlVal.vint 0]),
           ("states", YamlVal.vlist [YamlVal.vdict [("id", YamlVal.vint 0), ("txt", YamlVal.vstr "first")]])],
         YamlVal.vdict [("position", YamlVal.vlist [YamlVal.vint 0, YamlVal.vint 0]),
           ("states", YamlVal.vlist [YamlVal.vdict [("id", YamlVal.vint 0), ("txt", YamlVal.vstr "second")]])]]
      = Except.ok
        ([((0, 0),
           YamlVal.vdict [("position", YamlVal.vlist [YamlVal.vint 0, YamlVal.vint 0]),
             ("states", YamlVal.vlist [YamlVal.vdict [("id", YamlVal.vint 0), ("txt", YamlVal.vstr "second")]])])],
         [])
    ∧ YamlVal.vstr "first" ≠ YamlVal.vstr "second" :=
  ⟨by decide, by decide, by decide⟩

/-- C4: whenever validate_buttons accepts a document's button list, every
button's set of declared state ids contains the default id 0, and every
button declaring more than one state also contains the error-sink id 1. -/
theorem claim_C4_accepted_ids_contain_default_and_sink
    (rows cols : Int) (buttons : List YamlVal)
    (h : validate_buttons rows cols (YamlVal.vlist buttons) = Except.ok ()) :
    ∀ b ∈ buttons, DEFAULT_STATE_ID ∈ stateIdSet (statesOf b)
      ∧ (1 < (statesOf b).length →
          ERROR_SINK_STATE_ID ∈ stateIdSet (statesOf b)) := by
  rw [validate_buttons] at h
  rw [if_neg (by simp [YamlVal.isList])] at h
  obtain ⟨gt, h1, _⟩ := except_bind_eq_ok h
  obtain ⟨g, t⟩ := gt
  have h1' : firstPass rows cols [] [] buttons = Except.ok (g, t) := h1
  intro b hb
  obtain ⟨info, hi⟩ := firstPass_ok_forall h1' b hb
  obtain ⟨_, _, _, _, _, hmem, _, hlen, hdef, hsink, _, _, _, _, _, _⟩ :=
    process_button_ok hi
  refine ⟨?_, ?_⟩
  · obtain ⟨s, hs, hv⟩ := (hmem DEFAULT_STATE_ID).mp hdef
    exact mem_stateIdSet.mpr ⟨s, hs, hv⟩
  · intro hl
    have : 1 < info.declaredIds.length := by rw [hlen]; exact hl
    obtain ⟨s, hs, hv⟩ := (hmem ERROR_SINK_STATE_ID).mp (hsink this)
    exact mem_stateIdSet.mpr ⟨s, hs, hv⟩

/-- C4 (witness): a concrete accepted two-state button declares both the
default id 0 and the error-sink id 1. -/
theorem claim_C4_witness :
    DEFAULT_STATE_ID ∈ stateIdSet (statesOf (YamlVal.vdict
      [("position", YamlVal.vlist [YamlVal.vint 0, YamlVal.vint 0]),
       ("states", YamlVal.vlist [YamlVal.vdict [("id", YamlVal.vint 0)],
         YamlVal.vdict [("id", YamlVal.vint 1)]])]))
    ∧ (1 < (statesOf (YamlVal.vdict
      [("position", YamlVal.vlist [YamlVal.vint 0, YamlVal.vint 0]),
       ("states", YamlVal.vlist [YamlVal.vdict [("id", YamlVal.vint 0)],
         YamlVal.vdict [("id", YamlVal.vint 1)]])])).length →
        ERROR_SINK_STATE_ID ∈ stateIdSet (statesOf (YamlVal.vdict
      [("position", YamlVal.vlist [YamlVal.vint 0, YamlVal.vint 0]),
       ("states", YamlVal.vlist [YamlVal.vdict [("id", YamlVal.vint 0)],
         YamlVal.vdict [("id", YamlVal.vint 1)]])]))) :=
  claim_C4_accepted_ids_contain_default_and_sink 1 1
    [YamlVal.vdict
      [("position", YamlVal.vlist [YamlVal.vint 0, YamlVal.vint 0]),
       ("states", YamlVal.vlist [YamlVal.vdict [("id", YamlVal.vint 0)],
         YamlVal.vdict [("id", YamlVal.vint 1)]])]]
    (by decide) _ (by simp)

/-- C7 (counterexample): the claim quantifies over every document in which
some state declares a dangling follow_up_state, but validation does not
always fail with a ValidationError on such documents: here the offending
button (0, 0) declares follow_up_state 5 with no state 5, yet a sibling
button whose position is the one-element list [0] makes validate_buttons
raise an uncaught IndexError first. -/
theorem claim_C7_counterexample :
    validate_buttons 1 1 (YamlVal.vlist
      [YamlVal.vdict
        [("position", YamlVal.vlist [YamlVal.vint 0]),
         ("states", YamlVal.vlist [YamlVal.vdict [("id", YamlVal.vint 0)]])],
       YamlVal.vdict
        [("position", YamlVal.vlist [YamlVal.vint 0, YamlVal.vint 0]),
         ("states", YamlVal.vlist [YamlVal.vdict
           [("id", YamlVal.vint 0), ("follow_up_state", YamlVal.vint 5)]])]])
      = Except.error PyErr.indexError
    ∧ (∃ st ∈ statesOf (YamlVal.vdict
        [("position", YamlVal.vlist [YamlVal.vint 0, YamlVal.vint 0]),
         ("states", YamlVal.vlist [YamlVal.vdict
           [("id", YamlVal.vint 0), ("follow_up_state", YamlVal.vint 5)]])]),
        hasEntry st "follow_up_state" = true
        ∧ ¬((st.get "follow_up_state" (YamlVal.vint 0)).asInt
            ∈ stateIdSet (statesOf (YamlVal.vdict
              [("position", YamlVal.vlist [YamlVal.vint 0, YamlVal.vint 0]),
               ("states", YamlVal.vlist [YamlVal.vdict
                 [("id", YamlVal.vint 0),
                  ("follow_up_state", YamlVal.vint 5)]])])))) := by
  decide

/-- C7 (amended): (first part) restricted to documents whose buttons cannot
crash the validator — without that proviso an IndexError can pre-empt the
check, see the counterexample — if some state of a button declares a
follow_up_state whose value is not the integer id of any state declared on
that same button, then validate_buttons fails with a ValidationError (a
CustomException); (second part) a state that omits follow_up_state never
trips the follow-up referential check: the omitted entry defaults to 0, so
on a button that has the default state the check over the accumulated
follow-up ids passes. -/
theorem claim_C7_amended :
    (∀ (rows cols : Int) (buttons : List YamlVal),
        (∀ b ∈ buttons, buttonNoCrash rows cols b) →
        (∃ b ∈ buttons, ∃ st ∈ statesOf b,
            hasEntry st "follow_up_state" = true
            ∧ ¬((st.get "follow_up_state" (YamlVal.vint 0)).isInt = true
                ∧ (st.get "follow_up_state" (YamlVal.vint 0)).asInt
                    ∈ stateIdSet (statesOf b))) →
        ∃ msg, validate_buttons rows cols (YamlVal.vlist buttons) =
          Except.error (PyErr.customException msg))
    ∧ (∀ (b : YamlVal) (bd : String) (acc : StateAcc),
        validate_states bd ⟨[], []⟩ (statesOf b) = Except.ok acc →
        (∀ st ∈ statesOf b, hasEntry st "follow_up_state" = false) →
        DEFAULT_STATE_ID ∈ acc.definedIds →
        check_follow_ups bd acc.definedIds acc.followUps = Except.ok ()) := by
  constructor
  · intro rows cols buttons hwf hbad
    rw [validate_buttons, if_neg (by simp [YamlVal.isList])]
    rcases @firstPass_no_crash rows cols buttons [] [] hwf with
      ⟨⟨g, t⟩, hok⟩ | ⟨msg, herr⟩
    · exfalso
      obtain ⟨b, hb, st, hst, _, hnot⟩ := hbad
      obtain ⟨info, hi⟩ := firstPass_ok_forall hok b hb
      obtain ⟨_, _, _, _, hall, hmem, _, _, _, _, hfsub, hfmem, _, _, _, _⟩ :=
        process_button_ok hi
      have hfu_int := (hall st hst).2.2
      have hin : (st.get "follow_up_state" (YamlVal.vint 0)).asInt
          ∈ info.followUps := (hfmem _).mpr ⟨st, hst, rfl⟩
      obtain ⟨s', hs', hv⟩ := (hmem _).mp (hfsub _ hin)
      exact hnot ⟨hfu_int, mem_stateIdSet.mpr ⟨s', hs', hv⟩⟩
    · refine ⟨msg, ?_⟩
      have herr' : firstPass rows cols [] []
          (YamlVal.vlist buttons).asList =
            Except.error (PyErr.customException msg) := herr
      rw [herr', except_bind_err]
  · intro b bd acc hvs hnone hdef
    obtain ⟨_, _, _, _, hfol⟩ := validate_states_ok hvs
    apply check_follow_ups_complete
    intro f hf
    rcases (hfol f).mp hf with hf0 | ⟨st, hst, hv⟩
    · exact absurd hf0 (List.not_mem_nil f)
    · rw [get_of_not_hasEntry (hnone st hst)] at hv
      have hf0 : f = 0 := by simpa [YamlVal.asInt] using hv.symm
      rw [hf0]
      exact hdef

/-- C7 (witness): a concrete button with follow_up_state 5 and no state 5
is rejected with a ValidationError, and a concrete omitted-follow-up button
passes the follow-up referential check. -/
theorem claim_C7_witness :
    (∃ msg, validate_buttons 1 1 (YamlVal.vlist
        [YamlVal.vdict
          [("position", YamlVal.vlist [YamlVal.vint 0, YamlVal.vint 0]),
           ("states", YamlVal.vlist [YamlVal.vdict
             [("id", YamlVal.vint 0),
              ("follow_up_state", YamlVal.vint 5)]])]]) =
      Except.error (PyErr.customException msg))
    ∧ check_follow_ups "button (0, 0)" [0] [0] = Except.ok () := by
  constructor
  · refine claim_C7_amended.1 1 1 _ ?_ ?_
    · intro b hb
      rw [List.mem_singleton] at hb
      subst hb
      exact ⟨⟨true, by decide⟩, fun ht => absurd ht (by decide)⟩
    · exact ⟨_, List.mem_singleton.mpr rfl,
        YamlVal.vdict [("id", YamlVal.vint 0),
          ("follow_up_state", YamlVal.vint 5)],
        by decide, by decide, by decide⟩
  · exact claim_C7_amended.2
      (YamlVal.vdict
        [("position", YamlVal.vlist [YamlVal.vint 0, YamlVal.vint 0]),
         ("states", YamlVal.vlist [YamlVal.vdict [("id", YamlVal.vint 0)]])])
      "button (0, 0)" ⟨[0], [0]⟩ (by decide) (by decide) (by decide)

/-- C10 (counterexample): the one-element list containing the string "a"
has length 1, yet is_valid_dimension returns False on it without any
out-of-range access — the non-int test on element 0 short-circuits the
subscript of element 1 — refuting the claim that every list of length 0
or 1 crashes and that the false branch is unreachable for such inputs. -/
theorem claim_C10_counterexample :
    is_valid_dimension 3 3 (YamlVal.vlist [YamlVal.vstr "a"]) =
      Except.ok false := by rfl

/-- C10 (amended): is_valid_dimension accepts any list whose first two
elements are in-bounds ints regardless of extra elements; the empty list
always raises IndexError, and a one-element list raises IndexError exactly
when its element is an int (the short-circuit on a non-int element 0
returns False before element 1 is touched). -/
theorem claim_C10_amended :
    (∀ rows cols : Int, ∀ x0 x1 : YamlVal, ∀ rest : List YamlVal,
        x0.isInt = true → x1.isInt = true →
        0 ≤ x0.asInt → x0.asInt ≤ rows - 1 →
        0 ≤ x1.asInt → x1.asInt ≤ cols - 1 →
        is_valid_dimension rows cols (YamlVal.vlist (x0 :: x1 :: rest)) =
          Except.ok true)
    ∧ (∀ rows cols : Int,
        is_valid_dimension rows cols (YamlVal.vlist []) =
          Except.error PyErr.indexError)
    ∧ (∀ rows cols : Int, ∀ x : YamlVal, x.isInt = true →
        is_valid_dimension rows cols (YamlVal.vlist [x]) =
          Except.error PyErr.indexError)
    ∧ (∀ rows cols : Int, ∀ x : YamlVal, x.isInt = false →
        is_valid_dimension rows cols (YamlVal.vlist [x]) = Except.ok false) := by
  refine ⟨?_, ?_, ?_, ?_⟩
  · intro rows cols x0 x1 rest h0 h1 hb0 hb1 hb2 hb3
    rw [is_valid_dimension]
    rw [h0]
    simp only [Bool.not_true, Bool.false_eq_true, if_false]
    rw [h1]
    simp only [Bool.not_true, Bool.false_eq_true, if_false]
    rw [if_neg (by omega), if_neg (by omega)]
  · intro rows cols
    rfl
  · intro rows cols x h
    rw [is_valid_dimension, h]
    simp
  · intro rows cols x h
    rw [is_valid_dimension, h]
    simp

/-- C2 (code bug): for every document whose extracted values pass the
dimension, button and styling validations, get_config does NOT return a
Config: the Config(columns, rows, buttons, spacing, padding, borderless)
call of load.py passes six positional arguments to the dataclass of
config/classes.py, which requires ten, so the call raises TypeError; none
of get_config's except clauses catches TypeError, so every fully
validating document escapes with an uncaught TypeError instead of the
Config the claim and the spec contract promise. -/
theorem claim_C2_valid_document_raises_type_error (l : ConfigLoader)
    (doc : List (String × YamlVal))
    (h1 : validate_dimensions ((YamlVal.vdict doc).get "columns" YamlVal.vnull)
        ((YamlVal.vdict doc).get "rows" YamlVal.vnull) = Except.ok ())
    (h2 : validate_buttons ((YamlVal.vdict doc).get "rows" YamlVal.vnull).asInt
        ((YamlVal.vdict doc).get "columns" YamlVal.vnull).asInt
        ((YamlVal.vdict doc).get "buttons" YamlVal.vnull) = Except.ok ())
    (h3 : validate_styling ((YamlVal.vdict doc).get "spacing" (YamlVal.vint 5))
        ((YamlVal.vdict doc).get "padding" (YamlVal.vint 5))
        ((YamlVal.vdict doc).get "borderless" (YamlVal.vbool false)) =
          Except.ok ()) :
    l.get_config doc = Except.error PyErr.typeError := by
  have hi : interpret_config
      ⟨l.config_path,
        (YamlVal.vdict doc).get "columns" YamlVal.vnull,
        (YamlVal.vdict doc).get "rows" YamlVal.vnull,
        (YamlVal.vdict doc).get "buttons" YamlVal.vnull,
        (YamlVal.vdict doc).get "padding" (YamlVal.vint 5),
        (YamlVal.vdict doc).get "spacing" (YamlVal.vint 5),
        (YamlVal.vdict doc).get "borderless" (YamlVal.vbool false)⟩
      = Except.error PyErr.typeError := by
    unfold interpret_config
    dsimp only
    rw [h1, except_bind_ok, h2, except_bind_ok, h3, except_bind_ok]
  unfold ConfigLoader.get_config
  dsimp only
  rw [hi]

/-- C2 (witness): a concrete document with padding 7, borderless true and
spacing absent passes all three validations, and get_config raises the
uncaught TypeError. -/
theorem claim_C2_witness :
    ConfigLoader.get_config { config_path := "config.yml" }
      [("columns", YamlVal.vint 2), ("rows", YamlVal.vint 1),
       ("buttons", YamlVal.vlist [YamlVal.vdict
         [("position", YamlVal.vlist [YamlVal.vint 0, YamlVal.vint 1]),
          ("states", YamlVal.vlist [YamlVal.vdict [("id", YamlVal.vint 0)]])]]),
       ("padding", YamlVal.vint 7), ("borderless", YamlVal.vbool true)]
    = Except.error PyErr.typeError :=
  claim_C2_valid_document_raises_type_error _ _
    (by decide) (by decide) (by decide)

/-- C10 (witness for the amended theorem): concrete instances of all four
conjuncts. -/
theorem claim_C10_amended_witness :
    is_valid_dimension 3 4 (YamlVal.vlist
        [YamlVal.vint 2, YamlVal.vint 3, YamlVal.vnull]) = Except.ok true
    ∧ is_valid_dimension 3 4 (YamlVal.vlist []) = Except.error PyErr.indexError
    ∧ is_valid_dimension 3 4 (YamlVal.vlist [YamlVal.vint 0]) =
        Except.error PyErr.indexError
    ∧ is_valid_dimension 3 4 (YamlVal.vlist [YamlVal.vnull]) = Except.ok false :=
  ⟨claim_C10_amended.1 3 4 (YamlVal.vint 2) (YamlVal.vint 3) [YamlVal.vnull]
      rfl rfl (by decide) (by decide) (by decide) (by decide),
   claim_C10_amended.2.1 3 4,
   claim_C10_amended.2.2.1 3 4 (YamlVal.vint 0) rfl,
   claim_C10_amended.2.2.2 3 4 YamlVal.vnull rfl⟩

/-- C5 (counterexample): two independent failures of the claim.
First, duplicate positions defeat the only-if direction: a document with
two buttons at (0, 0) — ids \x7b0, 1, 2\x7d and \x7b0, 1\x7d — and a third
at (0, 1) with ids \x7b0, 1\x7d, where both (0, 0) buttons declare
affects_buttons [[0, 1]], is accepted by validate_buttons even though the
first button's id set differs from the linked button's: the second (0, 0)
entry overwrites the first in the position-keyed grid, so the first
button's ids are never compared.  Second, the never-rejected-in-any-order
clause fails: two buttons declaring the identical id set \x7b0, 1, 8\x7d,
one as [0, 1, 8] and one as [8, 1, 0], are REJECTED — 8 collides with 0
modulo the size-8 hash table, so list(set) enumerates the two declaration
orders differently ([0, 1, 8] versus [8, 1, 0]) and the order-sensitive
list comparison of load.py reports mismatching state ids. -/
theorem claim_C5_counterexample :
    (validate_buttons 1 2 (YamlVal.vlist
      [YamlVal.vdict
        [("position", YamlVal.vlist [YamlVal.vint 0, YamlVal.vint 0]),
         ("states", YamlVal.vlist [YamlVal.vdict [("id", YamlVal.vint 0)],
           YamlVal.vdict [("id", YamlVal.vint 1)],
           YamlVal.vdict [("id", YamlVal.vint 2)]]),
         ("affects_buttons", YamlVal.vlist
           [YamlVal.vlist [YamlVal.vint 0, YamlVal.vint 1]])],
       YamlVal.vdict
        [("position", YamlVal.vlist [YamlVal.vint 0, YamlVal.vint 0]),
         ("states", YamlVal.vlist [YamlVal.vdict [("id", YamlVal.vint 0)],
           YamlVal.vdict [("id", YamlVal.vint 1)]]),
         ("affects_buttons", YamlVal.vlist
           [YamlVal.vlist [YamlVal.vint 0, YamlVal.vint 1]])],
       YamlVal.vdict
        [("position", YamlVal.vlist [YamlVal.vint 0, YamlVal.vint 1]),
         ("states", YamlVal.vlist [YamlVal.vdict [("id", YamlVal.vint 0)],
           YamlVal.vdict [("id", YamlVal.vint 1)]])]]) = Except.ok ()
    ∧ (affectsOf (YamlVal.vdict
        [("position", YamlVal.vlist [YamlVal.vint 0, YamlVal.vint 0]),
         ("states", YamlVal.vlist [YamlVal.vdict [("id", YamlVal.vint 0)],
           YamlVal.vdict [("id", YamlVal.vint 1)],
           YamlVal.vdict [("id", YamlVal.vint 2)]]),
         ("affects_buttons", YamlVal.vlist
           [YamlVal.vlist [YamlVal.vint 0, YamlVal.vint 1]])])).truthy = true
    ∧ YamlVal.vlist [YamlVal.vint 0, YamlVal.vint 1] ∈ (affectsOf (YamlVal.vdict
        [("position", YamlVal.vlist [YamlVal.vint 0, YamlVal.vint 0]),
         ("states", YamlVal.vlist [YamlVal.vdict [("id", YamlVal.vint 0)],
           YamlVal.vdict [("id", YamlVal.vint 1)],
           YamlVal.vdict [("id", YamlVal.vint 2)]]),
         ("affects_buttons", YamlVal.vlist
           [YamlVal.vlist [YamlVal.vint 0, YamlVal.vint 1]])])).asList
    ∧ (∀ b ∈ [YamlVal.vdict
        [("position", YamlVal.vlist [YamlVal.vint 0, YamlVal.vint 0]),
         ("states", YamlVal.vlist [YamlVal.vdict [("id", YamlVal.vint 0)],
           YamlVal.vdict [("id", YamlVal.vint 1)],
           YamlVal.vdict [("id", YamlVal.vint 2)]]),
         ("affects_buttons", YamlVal.vlist
           [YamlVal.vlist [YamlVal.vint 0, YamlVal.vint 1]])],
       YamlVal.vdict
        [("position", YamlVal.vlist [YamlVal.vint 0, YamlVal.vint 0]),
         ("states", YamlVal.vlist [YamlVal.vdict [("id", YamlVal.vint 0)],
           YamlVal.vdict [("id", YamlVal.vint 1)]]),
         ("affects_buttons", YamlVal.vlist
           [YamlVal.vlist [YamlVal.vint 0, YamlVal.vint 1]])],
       YamlVal.vdict
        [("position", YamlVal.vlist [YamlVal.vint 0, YamlVal.vint 1]),
         ("states", YamlVal.vlist [YamlVal.vdict [("id", YamlVal.vint 0)],
           YamlVal.vdict [("id", YamlVal.vint 1)]])]],
        posKeyOf b = dimKeyOf (YamlVal.vlist [YamlVal.vint 0, YamlVal.vint 1])
          → stateIdSet (statesOf b) ≠ stateIdSet (statesOf (YamlVal.vdict
            [("position", YamlVal.vlist [YamlVal.vint 0, YamlVal.vint 0]),
             ("states", YamlVal.vlist [YamlVal.vdict [("id", YamlVal.vint 0)],
               YamlVal.vdict [("id", YamlVal.vint 1)],
               YamlVal.vdict [("id", YamlVal.vint 2)]]),
             ("affects_buttons", YamlVal.vlist
               [YamlVal.vlist [YamlVal.vint 0, YamlVal.vint 1]])]))))
    ∧ validate_buttons 1 2 (YamlVal.vlist
      [YamlVal.vdict
        [("position", YamlVal.vlist [YamlVal.vint 0, YamlVal.vint 0]),
         ("states", YamlVal.vlist [YamlVal.vdict [("id", YamlVal.vint 0)],
           YamlVal.vdict [("id", YamlVal.vint 1)],
           YamlVal.vdict [("id", YamlVal.vint 8)]]),
         ("affects_buttons", YamlVal.vlist
           [YamlVal.vlist [YamlVal.vint 0, YamlVal.vint 1]])],
       YamlVal.vdict
        [("position", YamlVal.vlist [YamlVal.vint 0, YamlVal.vint 1]),
         ("states", YamlVal.vlist [YamlVal.vdict [("id", YamlVal.vint 8)],
           YamlVal.vdict [("id", YamlVal.vint 1)],
           YamlVal.vdict [("id", YamlVal.vint 0)]])]])
      = Except.error (PyErr.customException
          ("invalid button (0, 0): affects_buttons buttons must have the "
            ++ "same state id s"))
    ∧ stateIdSet (statesOf (YamlVal.vdict
        [("position", YamlVal.vlist [YamlVal.vint 0, YamlVal.vint 0]),
         ("states", YamlVal.vlist [YamlVal.vdict [("id", YamlVal.vint 0)],
           YamlVal.vdict [("id", YamlVal.vint 1)],
           YamlVal.vdict [("id", YamlVal.vint 8)]]),
         ("affects_buttons", YamlVal.vlist
           [YamlVal.vlist [YamlVal.vint 0, YamlVal.vint 1]])]))
      = stateIdSet (statesOf (YamlVal.vdict
        [("position", YamlVal.vlist [YamlVal.vint 0, YamlVal.vint 1]),
         ("states", YamlVal.vlist [YamlVal.vdict [("id", YamlVal.vint 8)],
           YamlVal.vdict [("id", YamlVal.vint 1)],
           YamlVal.vdict [("id", YamlVal.vint 0)]])]))
    ∧ get_state_ids (statesOf (YamlVal.vdict
        [("position", YamlVal.vlist [YamlVal.vint 0, YamlVal.vint 0]),
         ("states", YamlVal.vlist [YamlVal.vdict [("id", YamlVal.vint 0)],
           YamlVal.vdict [("id", YamlVal.vint 1)],
           YamlVal.vdict [("id", YamlVal.vint 8)]]),
         ("affects_buttons", YamlVal.vlist
           [YamlVal.vlist [YamlVal.vint 0, YamlVal.vint 1]])]))
      = Except.ok [0, 1, 8]
    ∧ get_state_ids (statesOf (YamlVal.vdict
        [("position", YamlVal.vlist [YamlVal.vint 0, YamlVal.vint 1]),
         ("states", YamlVal.vlist [YamlVal.vdict [("id", YamlVal.vint 8)],
           YamlVal.vdict [("id", YamlVal.vint 1)],
           YamlVal.vdict [("id", YamlVal.vint 0)]])]))
      = Except.ok [8, 1, 0] := by
  decide

/-- C5 (amended): on a document whose buttons occupy pairwise-distinct grid
positions, acceptance by validate_buttons does imply that every
affects_buttons entry of every truthy-affects button resolves to a document
button whose get_state_ids listing — the list(set) value the program
actually compares — is the very listing of the triggering button, and that
listing is not of length one.  Both restrictions of the original claim are
necessary: without distinct positions a duplicate entry silently replaces
the earlier one in the grid (see the counterexample), and the comparison is
between order-sensitive list(set) enumerations, so buttons declaring the
same id set in colliding declaration orders are rejected (also in the
counterexample). -/
theorem claim_C5_amended :
    ∀ (rows cols : Int) (buttons : List YamlVal),
      List.Pairwise (fun b1 b2 => posKeyOf b1 ≠ posKeyOf b2) buttons →
      validate_buttons rows cols (YamlVal.vlist buttons) = Except.ok () →
      ∀ b ∈ buttons, (affectsOf b).truthy = true →
      ∀ a ∈ (affectsOf b).asList,
        ∃ b2 ∈ buttons, posKeyOf b2 = dimKeyOf a
          ∧ ∃ l, get_state_ids (statesOf b) = Except.ok l
              ∧ get_state_ids (statesOf b2) = Except.ok l
              ∧ l.length ≠ 1 := by
  intro rows cols buttons hdist hok b hb htruthy
  rw [validate_buttons, if_neg (by simp [YamlVal.isList])] at hok
  cases h1 : firstPass rows cols [] [] buttons with
  | error e =>
    have h1e : firstPass rows cols [] []
        (YamlVal.vlist buttons).asList = Except.error e := h1
    rw [h1e, except_bind_err] at hok
    exact absurd hok (fun hh => Except.noConfusion hh)
  | ok p =>
    obtain ⟨g, t⟩ := p
    have h1o : firstPass rows cols [] []
        (YamlVal.vlist buttons).asList = Except.ok (g, t) := h1
    rw [h1o, except_bind_ok] at hok
    have h2 : secondPass g t = Except.ok () := hok
    exact success_link_resolution hdist h1 h2 hb htruthy

/-- C5 (witness for the amended theorem): in a concrete accepted document
with distinct positions — a button at (0, 0) with ids 0 and 1 affecting
(0, 1), and a button at (0, 1) with ids 0 and 1 — the link resolves to a
button whose listing equals the trigger's and has two elements. -/
theorem claim_C5_witness :
    ∃ b2 ∈ [YamlVal.vdict
        [("position", YamlVal.vlist [YamlVal.vint 0, YamlVal.vint 0]),
         ("states", YamlVal.vlist [YamlVal.vdict [("id", YamlVal.vint 0)],
           YamlVal.vdict [("id", YamlVal.vint 1)]]),
         ("affects_buttons", YamlVal.vlist
           [YamlVal.vlist [YamlVal.vint 0, YamlVal.vint 1]])],
       YamlVal.vdict
        [("position", YamlVal.vlist [YamlVal.vint 0, YamlVal.vint 1]),
         ("states", YamlVal.vlist [YamlVal.vdict [("id", YamlVal.vint 0)],
           YamlVal.vdict [("id", YamlVal.vint 1)]])]],
      posKeyOf b2 = dimKeyOf (YamlVal.vlist [YamlVal.vint 0, YamlVal.vint 1])
        ∧ ∃ l, get_state_ids (statesOf (YamlVal.vdict
            [("position", YamlVal.vlist [YamlVal.vint 0, YamlVal.vint 0]),
             ("states", YamlVal.vlist [YamlVal.vdict [("id", YamlVal.vint 0)],
               YamlVal.vdict [("id", YamlVal.vint 1)]]),
             ("affects_buttons", YamlVal.vlist
               [YamlVal.vlist [YamlVal.vint 0, YamlVal.vint 1]])]))
            = Except.ok l
          ∧ get_state_ids (statesOf b2) = Except.ok l
          ∧ l.length ≠ 1 :=
  claim_C5_amended 1 2 _ (by decide) (by decide) _
    (List.mem_cons_self _ _) (by decide)
    (YamlVal.vlist [YamlVal.vint 0, YamlVal.vint 1]) (by decide)

/-- C6 (counterexample): a document whose single button sits at (0, 0) with
a three-element position [0, 0, 0] and whose affects_buttons references the
in-bounds empty position (0, 2) makes get_config raise an uncaught
ValueError — the second-pass reparse of the position string chokes on the
extra element before the dangling reference is reported — instead of
failing with the ValidationError (error string) the claim promises; no
Config and no error string is returned. -/
theorem claim_C6_counterexample :
    ConfigLoader.get_config { config_path := "config.yml" }
      [("columns", YamlVal.vint 3), ("rows", YamlVal.vint 1),
       ("buttons", YamlVal.vlist [YamlVal.vdict
         [("position", YamlVal.vlist
             [YamlVal.vint 0, YamlVal.vint 0, YamlVal.vint 0]),
          ("states", YamlVal.vlist [YamlVal.vdict [("id", YamlVal.vint 0)]]),
          ("affects_buttons", YamlVal.vlist
            [YamlVal.vlist [YamlVal.vint 0, YamlVal.vint 2]])]])]
      = Except.error PyErr.valueError
    ∧ is_valid_dimension 1 3 (YamlVal.vlist [YamlVal.vint 0, YamlVal.vint 2])
      = Except.ok true
    ∧ (affectsOf (YamlVal.vdict
        [("position", YamlVal.vlist
            [YamlVal.vint 0, YamlVal.vint 0, YamlVal.vint 0]),
         ("states", YamlVal.vlist [YamlVal.vdict [("id", YamlVal.vint 0)]]),
         ("affects_buttons", YamlVal.vlist
           [YamlVal.vlist [YamlVal.vint 0, YamlVal.vint 2]])])).truthy = true
    ∧ (∀ b ∈ [YamlVal.vdict
        [("position", YamlVal.vlist
            [YamlVal.vint 0, YamlVal.vint 0, YamlVal.vint 0]),
         ("states", YamlVal.vlist [YamlVal.vdict [("id", YamlVal.vint 0)]]),
         ("affects_buttons", YamlVal.vlist
           [YamlVal.vlist [YamlVal.vint 0, YamlVal.vint 2]])]],
        posKeyOf b ≠ dimKeyOf (YamlVal.vlist [YamlVal.vint 0, YamlVal.vint 2]))
    := by
  decide

/-- C6 (amended): (first part) on documents whose dict buttons carry
two-int positions at pairwise-distinct grid keys and cannot crash the
validator, a truthy affects_buttons entry referencing a position occupied
by no button forces validate_buttons to fail with a ValidationError (a
CustomException); (second part) when the dimension check passes and the
button validation fails with a CustomException, get_config returns the
error string built from its message — so under those provisos the dangling
reference yields the promised error string and never a Config. Positions
with extra elements fall outside the provisos: there the reparse raises an
uncaught ValueError before the dangling reference is reported (see the
counterexample). -/
theorem claim_C6_amended :
    (∀ (rows cols : Int) (buttons : List YamlVal),
        (∀ b ∈ buttons, b.isDict = true → ∃ r c,
          positionOf b = YamlVal.vlist [YamlVal.vint r, YamlVal.vint c]) →
        (∀ b ∈ buttons, buttonNoCrash rows cols b) →
        List.Pairwise (fun b1 b2 => posKeyOf b1 ≠ posKeyOf b2) buttons →
        (∃ b ∈ buttons, (affectsOf b).truthy = true
          ∧ ∃ a ∈ (affectsOf b).asList,
              ∀ b2 ∈ buttons, posKeyOf b2 ≠ dimKeyOf a) →
        ∃ msg, validate_buttons rows cols (YamlVal.vlist buttons) =
          Except.error (PyErr.customException msg))
    ∧ (∀ (l : ConfigLoader) (doc : List (String × YamlVal)) (msg : String),
        validate_dimensions ((YamlVal.vdict doc).get "columns" YamlVal.vnull)
          ((YamlVal.vdict doc).get "rows" YamlVal.vnull) = Except.ok () →
        validate_buttons ((YamlVal.vdict doc).get "rows" YamlVal.vnull).asInt
          ((YamlVal.vdict doc).get "columns" YamlVal.vnull).asInt
          ((YamlVal.vdict doc).get "buttons" YamlVal.vnull) =
            Except.error (PyErr.customException msg) →
        l.get_config doc = Except.ok (ConfigResult.errorString
          ("Error parsing config file. Reason: " ++ msg))) := by
  constructor
  · intro rows cols buttons hpos2 hwf hdist hdangle
    rcases validate_buttons_no_crash hpos2 hwf hdist with hok | herr
    · exfalso
      obtain ⟨b, hb, htruthy, a, ha, hnone⟩ := hdangle
      rw [validate_buttons, if_neg (by simp [YamlVal.isList])] at hok
      cases h1 : firstPass rows cols [] [] buttons with
      | error e =>
        have h1e : firstPass rows cols [] []
            (YamlVal.vlist buttons).asList = Except.error e := h1
        rw [h1e, except_bind_err] at hok
        exact Except.noConfusion hok
      | ok p =>
        obtain ⟨g, t⟩ := p
        have h1o : firstPass rows cols [] []
            (YamlVal.vlist buttons).asList = Except.ok (g, t) := h1
        rw [h1o, except_bind_ok] at hok
        have h2 : secondPass g t = Except.ok () := hok
        obtain ⟨b2, hb2, hkey, _⟩ :=
          success_link_resolution hdist h1 h2 hb htruthy a ha
        exact hnone b2 hb2 hkey
    · exact herr
  · intro l doc msg hd hb
    have hi : interpret_config
        ⟨l.config_path,
          (YamlVal.vdict doc).get "columns" YamlVal.vnull,
          (YamlVal.vdict doc).get "rows" YamlVal.vnull,
          (YamlVal.vdict doc).get "buttons" YamlVal.vnull,
          (YamlVal.vdict doc).get "padding" (YamlVal.vint 5),
          (YamlVal.vdict doc).get "spacing" (YamlVal.vint 5),
          (YamlVal.vdict doc).get "borderless" (YamlVal.vbool false)⟩
        = Except.error (PyErr.customException msg) := by
      unfold interpret_config
      dsimp only
      rw [hd, except_bind_ok, hb, except_bind_err]
    unfold ConfigLoader.get_config
    dsimp only
    rw [hi]

/-- C6 (witness for the amended theorem): a concrete document — one button
at (0, 0) with ids 0 and 1 whose affects_buttons references the empty
in-bounds position (0, 1) — makes get_config return an error string of the
promised form. -/
theorem claim_C6_witness :
    ∃ msg, ConfigLoader.get_config { config_path := "config.yml" }
      [("columns", YamlVal.vint 2), ("rows", YamlVal.vint 1),
       ("buttons", YamlVal.vlist [YamlVal.vdict
         [("position", YamlVal.vlist [YamlVal.vint 0, YamlVal.vint 0]),
          ("states", YamlVal.vlist [YamlVal.vdict [("id", YamlVal.vint 0)],
            YamlVal.vdict [("id", YamlVal.vint 1)]]),
          ("affects_buttons", YamlVal.vlist
            [YamlVal.vlist [YamlVal.vint 0, YamlVal.vint 1]])]])]
      = Except.ok (ConfigResult.errorString
        ("Error parsing config file. Reason: " ++ msg)) := by
  obtain ⟨msg, hmsg⟩ := claim_C6_amended.1 1 2
    [YamlVal.vdict
      [("position", YamlVal.vlist [YamlVal.vint 0, YamlVal.vint 0]),
       ("states", YamlVal.vlist [YamlVal.vdict [("id", YamlVal.vint 0)],
         YamlVal.vdict [("id", YamlVal.vint 1)]]),
       ("affects_buttons", YamlVal.vlist
         [YamlVal.vlist [YamlVal.vint 0, YamlVal.vint 1]])]]
    (fun b hb _ => by
      rw [List.mem_singleton] at hb
      subst hb
      exact ⟨0, 0, by decide⟩)
    (fun b hb => by
      rw [List.mem_singleton] at hb
      subst hb
      exact ⟨⟨true, by decide⟩, fun _ =>
        ⟨[YamlVal.vlist [YamlVal.vint 0, YamlVal.vint 1]], by decide,
          fun a ha => by
            rw [List.mem_singleton] at ha
            subst ha
            exact ⟨true, by decide⟩⟩⟩)
    (by decide)
    (by decide)
  exact ⟨msg, claim_C6_amended.2 { config_path := "config.yml" } _ msg
    (by decide) hmsg⟩
